import Mathlib

/-!
# FALCONN `core/data_storage.h`: `ArrayDataStorage` and its two iterators

A shallow embedding of `src/include/falconn/core/data_storage.h`.

* `std::vector<T>` is a `List T`; `size()` is the list length (a `size_t`).
  A list stands for a vector only when its length is a `size_t` value; the
  theorems that depend on a length bound state it as a hypothesis.
* `int_fast64_t` is an `Int`; every addition on it and every
  `static_cast<int_fast64_t>` of a `size_t` is reduced into the signed 64-bit
  range (`wrap64`, `toInt64`).
* `KeyType` is the default `int32_t`: an `Int`, and a conversion of a 64-bit
  value to it is reduced into the signed 32-bit range (`toKeyType`).
* A returned `const KeyType&` is a `KeyRef`: a reference to a live object or
  to a temporary that was destroyed when the function returned. Reading
  through the latter is a fault.
* A pointer member (`parent_`, `keys_`) is an `Option`: `none` is `nullptr`.
  The referenced vectors are never modified, so the pointee is the value.
* A member function that mutates `*this` and may throw returns the outcome
  together with the state it leaves behind.
* Dereferencing a null pointer and reading a vector out of bounds are
  faults of their own, distinct from the thrown `DataStorageError`.
-/

namespace falconn.core

/-! ## Machine integers and vector access -/

/-- What can go wrong in a call: the exception of the source
(`DataStorageError`, with its message) or an undefined operation. -/
inductive Fault where
  | DataStorageError (msg : String)
  | nullDereference
  | outOfBounds
  | danglingReference
  deriving DecidableEq, Repr

/-- Reduction of an integer into the signed 64-bit range (`int_fast64_t`). -/
def wrap64 (x : Int) : Int := (x + 2 ^ 63) % 2 ^ 64 - 2 ^ 63

/-- The cast `static_cast<int_fast64_t>(n)` of a `size_t` value. -/
def toInt64 (n : Nat) : Int := wrap64 (n : Int)

/-- Conversion of a 64-bit integer to `KeyType = int32_t`. -/
def toKeyType (x : Int) : Int := (x + 2 ^ 31) % 2 ^ 32 - 2 ^ 31

/-- The read `v[i]` of a `std::vector`: the index is converted to `size_t`
(so a negative index becomes a huge one) and the read is defined only inside
the vector. -/
def vecAt {β : Type} (v : List β) (i : Int) : Except Fault β :=
  match v[(i % 2 ^ 64).toNat]? with
  | some x => .ok x
  | none => .error .outOfBounds

/-- A returned `const KeyType&`. It refers either to an object that outlives
the call (`toObject`) or to a temporary created by the `return` statement and
destroyed at its end (`toTemporary`); the value is the one the referent holds
or held. -/
inductive KeyRef where
  | toObject (v : Int)
  | toTemporary (v : Int)
  deriving DecidableEq, Repr

/-- The read of a key through a returned reference: undefined when the
referent is a destroyed temporary. -/
def KeyRef.read : KeyRef → Except Fault Int
  | .toObject v => .ok v
  | .toTemporary _ => .error .danglingReference

/-! ## The prefetcher -/

/-- Modelled from the spec: `StdVectorPrefetcher` of `prefetchers.h`, which is
not part of the sources at hand. `hint(sequence, index)` returns nothing, never
throws and is purely advisory: all it can change is the prefetcher's own state
`π`, whose initial value is `init`. -/
structure StdVectorPrefetcher (α : Type) (π : Type) where
  init : π
  prefetch : π → List α → Int → π

/-- A prefetcher that records the hinted indices, oldest first. -/
def recordingPrefetcher (α : Type) : StdVectorPrefetcher α (List Int) where
  init := []
  prefetch log _ i := log ++ [i]

/-- A prefetcher whose hints are no-ops. -/
def noopPrefetcher (α : Type) : StdVectorPrefetcher α Unit where
  init := ()
  prefetch _ _ _ := ()

/-! ## The storage -/

/-- The class `ArrayDataStorage<PointType, KeyType>`: a view of a vector. -/
structure ArrayDataStorage (α : Type) where
  data_ : List α
  deriving DecidableEq

/-- The member `size()`: `return data_.size();` converted to `int_fast64_t`. -/
def ArrayDataStorage.size {α : Type} (s : ArrayDataStorage α) : Int :=
  toInt64 s.data_.length

/-! ## FullSequenceIterator -/

/-- The fields of `FullSequenceIterator`. -/
structure FullSequenceIterator (α : Type) (π : Type) where
  index_ : Int
  parent_ : Option (ArrayDataStorage α)
  prefetcher_ : π
  deriving DecidableEq

namespace FullSequenceIterator

variable {α π : Type}

/-- The argument-free constructor: the default member initialisers. -/
def default (P : StdVectorPrefetcher α π) : FullSequenceIterator α π :=
  { index_ := -1, parent_ := none, prefetcher_ := P.init }

/-- The constructor `FullSequenceIterator(const ArrayDataStorage& parent)`. -/
def construct (P : StdVectorPrefetcher α π) (parent : ArrayDataStorage α) :
    FullSequenceIterator α π :=
  if parent.data_.length = 0 then
    { index_ := -1, parent_ := none, prefetcher_ := P.init }
  else
    let p0 := P.prefetch P.init parent.data_ 0
    if 2 ≤ parent.data_.length then
      let p1 := P.prefetch p0 parent.data_ 1
      if 3 ≤ parent.data_.length then
        { index_ := 0, parent_ := some parent,
          prefetcher_ := P.prefetch p1 parent.data_ 2 }
      else
        { index_ := 0, parent_ := some parent, prefetcher_ := p1 }
    else
      { index_ := 0, parent_ := some parent, prefetcher_ := p0 }

/-- The member `get_point()`: `parent_->data_[index_]`. -/
def get_point (it : FullSequenceIterator α π) : Except Fault α :=
  match it.parent_ with
  | none => .error .nullDereference
  | some p => vecAt p.data_ it.index_

/-- The member `const KeyType& get_key() const { return index_; }`. The
member `index_` is an `int_fast64_t` and `KeyType` is `int32_t`, so the
reference cannot bind to `index_`: the `return` statement converts `index_`
into a temporary `KeyType` and returns a reference to that temporary, which
is destroyed before the caller can read it. -/
def get_key (it : FullSequenceIterator α π) : KeyRef :=
  .toTemporary (toKeyType it.index_)

/-- The member `is_valid()`: `parent_ != nullptr`. -/
def is_valid (it : FullSequenceIterator α π) : Bool :=
  it.parent_.isSome

/-- The condition of `operator++`:
`index_ >= 0 && index_ + 1 < static_cast<int_fast64_t>(parent_->data_.size())`,
the second operand being evaluated only when the first holds. -/
def hasNext (it : FullSequenceIterator α π) : Except Fault Bool :=
  if 0 ≤ it.index_ then
    match it.parent_ with
    | none => .error .nullDereference
    | some p => .ok (decide (wrap64 (it.index_ + 1) < toInt64 p.data_.length))
  else
    .ok false

/-- The member `operator++`: the outcome and the iterator it leaves. -/
def advance (P : StdVectorPrefetcher α π) (it : FullSequenceIterator α π) :
    Except Fault Unit × FullSequenceIterator α π :=
  match it.hasNext with
  | .error f => (.error f, it)
  | .ok true =>
    match it.parent_ with
    | none => (.error .nullDereference, it)
    | some p =>
      let i := wrap64 (it.index_ + 1)
      if wrap64 (i + 2) < toInt64 p.data_.length then
        (.ok (), { it with index_ := i,
                           prefetcher_ := P.prefetch it.prefetcher_ p.data_ (wrap64 (i + 2)) })
      else
        (.ok (), { it with index_ := i })
  | .ok false =>
    if it.index_ = -1 then
      (.error (.DataStorageError "Advancing invalid FullSequenceIterator."), it)
    else
      (.ok (), { it with parent_ := none, index_ := -1 })

end FullSequenceIterator

/-- The member `get_full_sequence()`. -/
def ArrayDataStorage.get_full_sequence {α π : Type} (P : StdVectorPrefetcher α π)
    (s : ArrayDataStorage α) : FullSequenceIterator α π :=
  FullSequenceIterator.construct P s

/-! ## SubsequenceIterator -/

/-- The fields of `SubsequenceIterator`. -/
structure SubsequenceIterator (α : Type) (π : Type) where
  index_ : Int
  keys_ : Option (List Int)
  parent_ : Option (ArrayDataStorage α)
  prefetcher_ : π
  deriving DecidableEq

namespace SubsequenceIterator

variable {α π : Type}

/-- The argument-free constructor: the default member initialisers. -/
def default (P : StdVectorPrefetcher α π) : SubsequenceIterator α π :=
  { index_ := -1, keys_ := none, parent_ := none, prefetcher_ := P.init }

/-- The constructor
`SubsequenceIterator(const std::vector<KeyType>& keys, const ArrayDataStorage& parent)`.
The reads `(*keys_)[0]`, `(*keys_)[1]`, `(*keys_)[2]` are vector reads. -/
def construct (P : StdVectorPrefetcher α π) (keys : List Int)
    (parent : ArrayDataStorage α) : Except Fault (SubsequenceIterator α π) :=
  if keys.length = 0 then
    .ok { index_ := -1, keys_ := none, parent_ := none, prefetcher_ := P.init }
  else
    match vecAt keys 0 with
    | .error f => .error f
    | .ok k0 =>
      let p0 := P.prefetch P.init parent.data_ k0
      if 2 ≤ keys.length then
        match vecAt keys 1 with
        | .error f => .error f
        | .ok k1 =>
          let p1 := P.prefetch p0 parent.data_ k1
          if 3 ≤ keys.length then
            match vecAt keys 2 with
            | .error f => .error f
            | .ok k2 =>
              .ok { index_ := 0, keys_ := some keys, parent_ := some parent,
                    prefetcher_ := P.prefetch p1 parent.data_ k2 }
          else
            .ok { index_ := 0, keys_ := some keys, parent_ := some parent,
                  prefetcher_ := p1 }
      else
        .ok { index_ := 0, keys_ := some keys, parent_ := some parent,
              prefetcher_ := p0 }

/-- The member `get_key()`: `(*keys_)[index_]`. -/
def get_key (it : SubsequenceIterator α π) : Except Fault Int :=
  match it.keys_ with
  | none => .error .nullDereference
  | some ks => vecAt ks it.index_

/-- The member `get_point()`: `parent_->data_[(*keys_)[index_]]`. -/
def get_point (it : SubsequenceIterator α π) : Except Fault α :=
  match it.parent_ with
  | none => .error .nullDereference
  | some p =>
    match it.get_key with
    | .error f => .error f
    | .ok k => vecAt p.data_ k

/-- The member `is_valid()`: `parent_ != nullptr`. -/
def is_valid (it : SubsequenceIterator α π) : Bool :=
  it.parent_.isSome

/-- The condition of `operator++`:
`index_ >= 0 && index_ + 1 < static_cast<int_fast64_t>(keys_->size())`,
the second operand being evaluated only when the first holds. -/
def hasNext (it : SubsequenceIterator α π) : Except Fault Bool :=
  if 0 ≤ it.index_ then
    match it.keys_ with
    | none => .error .nullDereference
    | some ks => .ok (decide (wrap64 (it.index_ + 1) < toInt64 ks.length))
  else
    .ok false

/-- The member `operator++`: the outcome and the iterator it leaves. The
exception is thrown before the three assignments that follow it. -/
def advance (P : StdVectorPrefetcher α π) (it : SubsequenceIterator α π) :
    Except Fault Unit × SubsequenceIterator α π :=
  match it.hasNext with
  | .error f => (.error f, it)
  | .ok true =>
    match it.keys_ with
    | none => (.error .nullDereference, it)
    | some ks =>
      let i := wrap64 (it.index_ + 1)
      if wrap64 (i + 2) < toInt64 ks.length then
        match it.parent_ with
        | none => (.error .nullDereference, { it with index_ := i })
        | some p =>
          match vecAt ks (wrap64 (i + 2)) with
          | .error f => (.error f, { it with index_ := i })
          | .ok k =>
            (.ok (), { it with index_ := i,
                               prefetcher_ := P.prefetch it.prefetcher_ p.data_ k })
      else
        (.ok (), { it with index_ := i })
  | .ok false =>
    if it.index_ = -1 then
      (.error (.DataStorageError "Advancing invalid SubsequenceIterator."), it)
    else
      (.ok (), { it with keys_ := none, parent_ := none, index_ := -1 })

end SubsequenceIterator

/-- The member `get_subsequence(keys)`. -/
def ArrayDataStorage.get_subsequence {α π : Type} (P : StdVectorPrefetcher α π)
    (s : ArrayDataStorage α) (keys : List Int) :
    Except Fault (SubsequenceIterator α π) :=
  SubsequenceIterator.construct P keys s

/-! ## Driving an iterator

The caller's loop of the specification: while `is_valid()`, read `get_key()`
and `get_point()`, then advance. -/

/-- How a driven traversal ends: with the pairs read and the iterator left
behind, with a fault, or with the step budget used up. -/
inductive DriveResult (β : Type) where
  | done (r : β)
  | fault (f : Fault)
  | outOfFuel
  deriving DecidableEq, Repr

/-- The caller's loop over a `FullSequenceIterator`, at most `fuel` rounds. -/
def FullSequenceIterator.drive {α π : Type} (P : StdVectorPrefetcher α π) :
    Nat → FullSequenceIterator α π →
    DriveResult (List (Int × α) × FullSequenceIterator α π)
  | fuel, it =>
    if it.is_valid then
      match fuel with
      | 0 => .outOfFuel
      | fuel + 1 =>
        match it.get_key.read with
        | .error f => .fault f
        | .ok k =>
          match it.get_point with
          | .error f => .fault f
          | .ok pt =>
            match it.advance P with
            | (.error f, _) => .fault f
            | (.ok (), it2) =>
              match FullSequenceIterator.drive P fuel it2 with
              | .done (ps, fin) => .done ((k, pt) :: ps, fin)
              | .fault f => .fault f
              | .outOfFuel => .outOfFuel
    else
      .done ([], it)

/-- The caller's loop over a `SubsequenceIterator`, at most `fuel` rounds. -/
def SubsequenceIterator.drive {α π : Type} (P : StdVectorPrefetcher α π) :
    Nat → SubsequenceIterator α π →
    DriveResult (List (Int × α) × SubsequenceIterator α π)
  | fuel, it =>
    if it.is_valid then
      match fuel with
      | 0 => .outOfFuel
      | fuel + 1 =>
        match it.get_key with
        | .error f => .fault f
        | .ok k =>
          match it.get_point with
          | .error f => .fault f
          | .ok pt =>
            match it.advance P with
            | (.error f, _) => .fault f
            | (.ok (), it2) =>
              match SubsequenceIterator.drive P fuel it2 with
              | .done (ps, fin) => .done ((k, pt) :: ps, fin)
              | .fault f => .fault f
              | .outOfFuel => .outOfFuel
    else
      .done ([], it)

/-! ## Arbitrary call sequences -/

/-- The four public member functions of an iterator. -/
inductive Op where
  | is_valid
  | get_key
  | get_point
  | advance
  deriving DecidableEq, Repr

/-- What a caller sees of one call. -/
inductive Obs (α : Type) where
  | valid (b : Bool)
  | key (k : Except Fault Int)
  | point (p : Except Fault α)
  | advanced (r : Except Fault Unit)

/-- One call on a `FullSequenceIterator`: what is seen and the iterator left. -/
def FullSequenceIterator.perform {α π : Type} (P : StdVectorPrefetcher α π)
    (it : FullSequenceIterator α π) : Op → Obs α × FullSequenceIterator α π
  | .is_valid => (.valid it.is_valid, it)
  | .get_key => (.key it.get_key.read, it)
  | .get_point => (.point it.get_point, it)
  | .advance => (.advanced (it.advance P).1, (it.advance P).2)

/-- A sequence of calls on a `FullSequenceIterator`. -/
def FullSequenceIterator.runOps {α π : Type} (P : StdVectorPrefetcher α π) :
    FullSequenceIterator α π → List Op → List (Obs α) × FullSequenceIterator α π
  | it, [] => ([], it)
  | it, op :: ops =>
    let r := it.perform P op
    let rest := FullSequenceIterator.runOps P r.2 ops
    (r.1 :: rest.1, rest.2)

/-- One call on a `SubsequenceIterator`: what is seen and the iterator left. -/
def SubsequenceIterator.perform {α π : Type} (P : StdVectorPrefetcher α π)
    (it : SubsequenceIterator α π) : Op → Obs α × SubsequenceIterator α π
  | .is_valid => (.valid it.is_valid, it)
  | .get_key => (.key it.get_key, it)
  | .get_point => (.point it.get_point, it)
  | .advance => (.advanced (it.advance P).1, (it.advance P).2)

/-- A sequence of calls on a `SubsequenceIterator`. -/
def SubsequenceIterator.runOps {α π : Type} (P : StdVectorPrefetcher α π) :
    SubsequenceIterator α π → List Op → List (Obs α) × SubsequenceIterator α π
  | it, [] => ([], it)
  | it, op :: ops =>
    let r := it.perform P op
    let rest := SubsequenceIterator.runOps P r.2 ops
    (r.1 :: rest.1, rest.2)

/-! ## The cursor of an iterator -/

/-- The fields of a `FullSequenceIterator` other than the prefetcher. -/
def FullSequenceIterator.cursor {α π : Type} (it : FullSequenceIterator α π) :
    Int × Option (ArrayDataStorage α) :=
  (it.index_, it.parent_)

/-- The fields of a `SubsequenceIterator` other than the prefetcher. -/
def SubsequenceIterator.cursor {α π : Type} (it : SubsequenceIterator α π) :
    Int × Option (List Int) × Option (ArrayDataStorage α) :=
  (it.index_, it.keys_, it.parent_)

/-! ## Reachable states -/

/-- The iterators a program can hold: built by either constructor and then
advanced any number of times, failed advances included. -/
inductive FullSequenceIterator.Reachable {α π : Type} (P : StdVectorPrefetcher α π) :
    FullSequenceIterator α π → Prop where
  | default : Reachable P (FullSequenceIterator.default P)
  | construct (parent : ArrayDataStorage α) :
      Reachable P (FullSequenceIterator.construct P parent)
  | advance (it : FullSequenceIterator α π) :
      Reachable P it → Reachable P (it.advance P).2

/-- The iterators a program can hold: built by either constructor and then
advanced any number of times, failed advances included. The key list is a
`std::vector` of 4-byte keys, so it has fewer than `2 ^ 63 - 1` entries and
`index_ + 2` stays inside `int_fast64_t`. -/
inductive SubsequenceIterator.Reachable {α π : Type} (P : StdVectorPrefetcher α π) :
    SubsequenceIterator α π → Prop where
  | default : Reachable P (SubsequenceIterator.default P)
  | construct (keys : List Int) (parent : ArrayDataStorage α)
      (it : SubsequenceIterator α π) :
      keys.length < 2 ^ 63 - 1 →
      SubsequenceIterator.construct P keys parent = .ok it → Reachable P it
  | advance (it : SubsequenceIterator α π) :
      Reachable P it → Reachable P (it.advance P).2

/-! ## What a traversal is expected to read -/

/-- The pairs `(k, data[k])` for the keys of a list that index into `data`,
in the order of the list. -/
def selectPairs {α : Type} (data : List α) (ks : List Int) : List (Int × α) :=
  ks.filterMap fun k => (data[k.toNat]?).map fun x => (k, x)

/-! ## Representation invariants -/

/-- The invariant of `FullSequenceIterator`: either exhausted (cursor `-1`,
null parent) or positioned inside the collection. -/
def FullSequenceIterator.Inv {α π : Type} (it : FullSequenceIterator α π) : Prop :=
  (it.index_ = -1 ∧ it.parent_ = none) ∨
  (∃ p, it.parent_ = some p ∧ 0 ≤ it.index_ ∧ it.index_ < (p.data_.length : Int) ∧
    (it.index_ = 0 ∨ it.index_ < toInt64 p.data_.length))

/-- The invariant of `SubsequenceIterator`: either exhausted (cursor `-1`,
null parent and null key list) or positioned inside the key list. -/
def SubsequenceIterator.Inv {α π : Type} (it : SubsequenceIterator α π) : Prop :=
  (it.index_ = -1 ∧ it.parent_ = none ∧ it.keys_ = none) ∨
  (∃ p ks, it.parent_ = some p ∧ it.keys_ = some ks ∧ 0 ≤ it.index_ ∧
    it.index_ < (ks.length : Int) ∧ ks.length < 2 ^ 63 - 1)

/-! ## Repeated advances -/

/-- The iterator left by `n` calls of `operator++` in a row on a
`FullSequenceIterator`, a failed call leaving the iterator as it stands. -/
def FullSequenceIterator.advanceN {α π : Type} (P : StdVectorPrefetcher α π) :
    Nat → FullSequenceIterator α π → FullSequenceIterator α π
  | 0, it => it
  | n + 1, it => FullSequenceIterator.advanceN P n (it.advance P).2

/-- The iterator left by `n` calls of `operator++` in a row on a
`SubsequenceIterator`, a failed call leaving the iterator as it stands. -/
def SubsequenceIterator.advanceN {α π : Type} (P : StdVectorPrefetcher α π) :
    Nat → SubsequenceIterator α π → SubsequenceIterator α π
  | 0, it => it
  | n + 1, it => SubsequenceIterator.advanceN P n (it.advance P).2

/-- The collection indices `0, 1, ..., n - 1` as prefetch hints. -/
def firstPositions (n : Nat) : List Int :=
  (List.range n).map fun (i : Nat) => (i : Int)

/-- The integers that are values of `KeyType = int32_t`: the entries a
`std::vector<KeyType>` can hold. -/
def IsKeyType (k : Int) : Prop := -(2 ^ 31) ≤ k ∧ k < 2 ^ 31

instance (k : Int) : Decidable (IsKeyType k) := by
  unfold IsKeyType
  exact inferInstance

/-! ## Machine arithmetic -/

theorem wrap64_of_range (x : Int) (h1 : -(2 ^ 63) ≤ x) (h2 : x < 2 ^ 63) :
    wrap64 x = x := by
  unfold wrap64
  omega

theorem toInt64_of_lt (n : Nat) (h : n < 2 ^ 63) : toInt64 n = (n : Int) := by
  unfold toInt64 wrap64
  omega

theorem toInt64_le (n : Nat) : toInt64 n ≤ (n : Int) := by
  unfold toInt64 wrap64
  omega

theorem toInt64_lt_pow (n : Nat) : toInt64 n < 2 ^ 63 := by
  unfold toInt64 wrap64
  omega

theorem toKeyType_of_range (x : Int) (h1 : -(2 ^ 31) ≤ x) (h2 : x < 2 ^ 31) :
    toKeyType x = x := by
  unfold toKeyType
  omega

theorem vecAt_natCast {β : Type} (v : List β) (i : Nat) (h : i < v.length)
    (h64 : i < 2 ^ 64) : vecAt v (i : Int) = .ok v[i] := by
  have e : ((i : Int) % 2 ^ 64).toNat = i := by omega
  unfold vecAt
  rw [e]
  simp [h]

theorem vecAt_of_range {β : Type} (v : List β) (x : Int) (h0 : 0 ≤ x)
    (h : x < (v.length : Int)) (h64 : x < 2 ^ 64) :
    ∃ y, vecAt v x = .ok y ∧ v[x.toNat]? = some y := by
  have e : (x % 2 ^ 64).toNat = x.toNat := by omega
  have hl : x.toNat < v.length := by omega
  refine ⟨v[x.toNat], ?_, by simp [hl]⟩
  unfold vecAt
  rw [e]
  simp [hl]

/-! ## FullSequenceIterator: single steps -/

namespace FullSequenceIterator

variable {α π : Type}

theorem advance_exhausted (P : StdVectorPrefetcher α π) (it : FullSequenceIterator α π)
    (h : it.index_ = -1) :
    it.advance P =
      (.error (.DataStorageError "Advancing invalid FullSequenceIterator."), it) := by
  simp [advance, hasNext, h]

theorem advance_next (P : StdVectorPrefetcher α π) (it : FullSequenceIterator α π)
    (p : ArrayDataStorage α) (hp : it.parent_ = some p) (h0 : 0 ≤ it.index_)
    (hlt : it.index_ + 1 < toInt64 p.data_.length) :
    (it.advance P).1 = .ok () ∧ (it.advance P).2.index_ = it.index_ + 1 ∧
      (it.advance P).2.parent_ = some p := by
  have hb := toInt64_lt_pow p.data_.length
  have w1 : wrap64 (it.index_ + 1) = it.index_ + 1 := wrap64_of_range _ (by omega) (by omega)
  by_cases h3 : wrap64 (it.index_ + 1 + 2) < toInt64 p.data_.length
  · simp [advance, hasNext, hp, h0, w1, hlt, h3]
  · simp [advance, hasNext, hp, h0, w1, hlt, h3]

theorem advance_next_prefetcher (P : StdVectorPrefetcher α π)
    (it : FullSequenceIterator α π)
    (p : ArrayDataStorage α) (hp : it.parent_ = some p) (h0 : 0 ≤ it.index_)
    (hlt : it.index_ + 1 < toInt64 p.data_.length)
    (hL : toInt64 p.data_.length < 2 ^ 63 - 1) :
    (it.advance P).2.prefetcher_ =
      (if it.index_ + 3 < toInt64 p.data_.length then
        P.prefetch it.prefetcher_ p.data_ (it.index_ + 3) else it.prefetcher_) := by
  have w1 : wrap64 (it.index_ + 1) = it.index_ + 1 := wrap64_of_range _ (by omega) (by omega)
  have w2 : wrap64 (it.index_ + 1 + 2) = it.index_ + 3 := by
    rw [wrap64_of_range _ (by omega) (by omega)]; omega
  by_cases h3 : it.index_ + 3 < toInt64 p.data_.length
  · simp [advance, hasNext, hp, h0, w1, w2, hlt, h3]
  · simp [advance, hasNext, hp, h0, w1, w2, hlt, h3]

theorem advance_last (P : StdVectorPrefetcher α π) (it : FullSequenceIterator α π)
    (p : ArrayDataStorage α) (hp : it.parent_ = some p) (h0 : 0 ≤ it.index_)
    (hb : it.index_ < 2 ^ 63 - 1)
    (hlt : ¬ it.index_ + 1 < toInt64 p.data_.length) :
    it.advance P = (.ok (), { it with parent_ := none, index_ := -1 }) := by
  have w1 : wrap64 (it.index_ + 1) = it.index_ + 1 := wrap64_of_range _ (by omega) (by omega)
  have hne : it.index_ ≠ -1 := by omega
  simp [advance, hasNext, hp, h0, w1, hlt, hne]

theorem inv_default (P : StdVectorPrefetcher α π) :
    (FullSequenceIterator.default P).Inv := by
  left
  exact ⟨rfl, rfl⟩

theorem inv_construct (P : StdVectorPrefetcher α π) (parent : ArrayDataStorage α) :
    (construct P parent).Inv := by
  unfold construct
  split
  · left; exact ⟨rfl, rfl⟩
  · right
    refine ⟨parent, ?_, ?_, ?_, ?_⟩
    · split <;> [split; skip] <;> rfl
    · split <;> [split; skip] <;> simp
    · split <;> [split; skip] <;> simp <;> omega
    · left
      split <;> [split; skip] <;> rfl

theorem inv_advance (P : StdVectorPrefetcher α π) (it : FullSequenceIterator α π)
    (h : it.Inv) : (it.advance P).2.Inv := by
  rcases h with ⟨hi, hp⟩ | ⟨p, hp, h0, hL, hT⟩
  · rw [advance_exhausted P it hi]
    left
    exact ⟨hi, hp⟩
  · have hb := toInt64_lt_pow p.data_.length
    have hle := toInt64_le p.data_.length
    by_cases hlt : it.index_ + 1 < toInt64 p.data_.length
    · obtain ⟨_, hi, hp2⟩ := advance_next P it p hp h0 hlt
      right
      exact ⟨p, hp2, by omega, by omega, by omega⟩
    · rw [advance_last P it p hp h0 (by omega) hlt]
      left
      exact ⟨rfl, rfl⟩

theorem inv_of_reachable (P : StdVectorPrefetcher α π) (it : FullSequenceIterator α π)
    (h : Reachable P it) : it.Inv := by
  induction h with
  | default => exact inv_default P
  | construct parent => exact inv_construct P parent
  | advance it _ ih => exact inv_advance P it ih

end FullSequenceIterator

/-! ## SubsequenceIterator: single steps -/

namespace SubsequenceIterator

variable {α π : Type}

theorem construct_nil (P : StdVectorPrefetcher α π) (parent : ArrayDataStorage α) :
    construct P [] parent =
      .ok { index_ := -1, keys_ := none, parent_ := none, prefetcher_ := P.init } := by
  simp [construct]

theorem construct_cons (P : StdVectorPrefetcher α π) (parent : ArrayDataStorage α)
    (k : Int) (ks : List Int) :
    construct P (k :: ks) parent =
      .ok { index_ := 0, keys_ := some (k :: ks), parent_ := some parent,
            prefetcher_ := ((k :: ks).take 3).foldl
              (fun q j => P.prefetch q parent.data_ j) P.init } := by
  match ks with
  | [] => simp [construct, vecAt]
  | [a] => simp [construct, vecAt]
  | a :: b :: rest => simp [construct, vecAt]

theorem keyed_advance_exhausted (P : StdVectorPrefetcher α π) (it : SubsequenceIterator α π)
    (h : it.index_ = -1) :
    it.advance P =
      (.error (.DataStorageError "Advancing invalid SubsequenceIterator."), it) := by
  simp [advance, hasNext, h]

theorem keyed_advance_next (P : StdVectorPrefetcher α π) (it : SubsequenceIterator α π)
    (p : ArrayDataStorage α) (ks : List Int) (hp : it.parent_ = some p)
    (hk : it.keys_ = some ks) (h0 : 0 ≤ it.index_)
    (hlt : it.index_ + 1 < (ks.length : Int)) (hM : ks.length < 2 ^ 63 - 1) :
    (it.advance P).1 = .ok () ∧ (it.advance P).2.index_ = it.index_ + 1 ∧
      (it.advance P).2.parent_ = some p ∧ (it.advance P).2.keys_ = some ks ∧
      (it.advance P).2.prefetcher_ =
        (if it.index_ + 3 < (ks.length : Int) then
          P.prefetch it.prefetcher_ p.data_ (ks.getD (it.index_ + 3).toNat 0)
         else it.prefetcher_) := by
  have hT : toInt64 ks.length = (ks.length : Int) := toInt64_of_lt _ (by omega)
  have w1 : wrap64 (it.index_ + 1) = it.index_ + 1 := wrap64_of_range _ (by omega) (by omega)
  have w2 : wrap64 (it.index_ + 1 + 2) = it.index_ + 3 := by
    rw [wrap64_of_range _ (by omega) (by omega)]; omega
  by_cases h3 : it.index_ + 3 < (ks.length : Int)
  · obtain ⟨y, hy, hy2⟩ := vecAt_of_range ks (it.index_ + 3) (by omega) h3 (by omega)
    simp [advance, hasNext, hp, hk, h0, w1, w2, hT, hlt, h3, hy, hy2]
  · simp [advance, hasNext, hp, hk, h0, w1, w2, hT, hlt, h3]

theorem keyed_advance_last (P : StdVectorPrefetcher α π) (it : SubsequenceIterator α π)
    (ks : List Int) (hk : it.keys_ = some ks) (h0 : 0 ≤ it.index_)
    (hi : it.index_ < (ks.length : Int))
    (hlt : ¬ it.index_ + 1 < (ks.length : Int)) (hM : ks.length < 2 ^ 63) :
    it.advance P = (.ok (), { it with keys_ := none, parent_ := none, index_ := -1 }) := by
  have hT : toInt64 ks.length = (ks.length : Int) := toInt64_of_lt _ hM
  have w1 : wrap64 (it.index_ + 1) = it.index_ + 1 := wrap64_of_range _ (by omega) (by omega)
  have hne : it.index_ ≠ -1 := by omega
  simp [advance, hasNext, hk, h0, w1, hT, hlt, hne]

theorem keyed_inv_default (P : StdVectorPrefetcher α π) :
    (SubsequenceIterator.default P).Inv := by
  left
  exact ⟨rfl, rfl, rfl⟩

theorem keyed_inv_construct (P : StdVectorPrefetcher α π) (keys : List Int)
    (parent : ArrayDataStorage α) (it : SubsequenceIterator α π)
    (hM : keys.length < 2 ^ 63 - 1) (h : construct P keys parent = .ok it) : it.Inv := by
  match keys with
  | [] =>
    rw [construct_nil] at h
    cases h
    left
    exact ⟨rfl, rfl, rfl⟩
  | k :: ks =>
    rw [construct_cons] at h
    cases h
    right
    exact ⟨parent, k :: ks, rfl, rfl, le_refl _, by simp, hM⟩

theorem keyed_inv_advance (P : StdVectorPrefetcher α π) (it : SubsequenceIterator α π)
    (h : it.Inv) : (it.advance P).2.Inv := by
  rcases h with ⟨hi, hp, hk⟩ | ⟨p, ks, hp, hk, h0, hL, hM⟩
  · rw [keyed_advance_exhausted P it hi]
    left
    exact ⟨hi, hp, hk⟩
  · by_cases hlt : it.index_ + 1 < (ks.length : Int)
    · obtain ⟨_, hi, hp2, hk2, _⟩ := keyed_advance_next P it p ks hp hk h0 hlt hM
      right
      exact ⟨p, ks, hp2, hk2, by omega, by omega, hM⟩
    · rw [keyed_advance_last P it ks hk h0 hL hlt (by omega)]
      left
      exact ⟨rfl, rfl, rfl⟩

theorem keyed_inv_of_reachable (P : StdVectorPrefetcher α π) (it : SubsequenceIterator α π)
    (h : Reachable P it) : it.Inv := by
  induction h with
  | default => exact keyed_inv_default P
  | construct keys parent it hM hc => exact keyed_inv_construct P keys parent it hM hc
  | advance it _ ih => exact keyed_inv_advance P it ih

end SubsequenceIterator

/-! ## Driving a FullSequenceIterator -/

namespace FullSequenceIterator

variable {α π : Type}

theorem drive_exhausted (P : StdVectorPrefetcher α π) (fuel : Nat)
    (it : FullSequenceIterator α π) (h : it.parent_ = none) :
    drive P fuel it = .done ([], it) := by
  unfold drive
  simp [is_valid, h]

end FullSequenceIterator

/-! ## Driving a SubsequenceIterator -/

namespace SubsequenceIterator

variable {α π : Type}

theorem keyed_drive_exhausted (P : StdVectorPrefetcher α π) (fuel : Nat)
    (it : SubsequenceIterator α π) (h : it.parent_ = none) :
    drive P fuel it = .done ([], it) := by
  unfold drive
  simp [is_valid, h]

theorem selectPairs_step (data : List α) (ks : List Int) (i : Nat) (h : i < ks.length)
    (x : α) (hx : data[(ks[i]).toNat]? = some x) :
    selectPairs data (ks.drop i) = (ks[i], x) :: selectPairs data (ks.drop (i + 1)) := by
  unfold selectPairs
  rw [List.drop_eq_getElem_cons h, List.filterMap_cons, hx]
  rfl

theorem keyed_drive_from (P : StdVectorPrefetcher α π) (p : ArrayDataStorage α)
    (ks : List Int) (hM : ks.length < 2 ^ 63 - 1) (hN : p.data_.length < 2 ^ 64)
    (hK : ∀ k ∈ ks, 0 ≤ k ∧ k < (p.data_.length : Int)) :
    ∀ (fuel i : Nat) (it : SubsequenceIterator α π),
      it.parent_ = some p → it.keys_ = some ks → it.index_ = (i : Int) →
      i < ks.length → ks.length - i ≤ fuel →
      ∃ fin, drive P fuel it = .done (selectPairs p.data_ (ks.drop i), fin) ∧
        fin.index_ = -1 ∧ fin.parent_ = none ∧ fin.keys_ = none := by
  intro fuel
  induction fuel with
  | zero => intro i it _ _ _ hi hf; omega
  | succ fuel ih =>
    intro i it hp hk hidx hi hf
    have hkey : it.get_key = .ok ks[i] := by
      simp only [get_key, hk, hidx]
      exact vecAt_natCast _ _ hi (by omega)
    obtain ⟨hk0, hk1⟩ := hK ks[i] (List.getElem_mem hi)
    obtain ⟨x, hx, hx2⟩ := vecAt_of_range p.data_ ks[i] hk0 hk1 (by omega)
    have hpt : it.get_point = .ok x := by
      simp only [get_point, hp, hkey, hx]
    rw [selectPairs_step _ _ _ hi x hx2]
    by_cases hlt : i + 1 < ks.length
    · obtain ⟨h1, h2, h3, h4, _⟩ :=
        keyed_advance_next P it p ks hp hk (by omega) (by omega) hM
      obtain ⟨fin, hd, hfin⟩ := ih (i + 1) (it.advance P).2 h3 h4
        (by rw [h2, hidx]; push_cast; rfl) hlt (by omega)
      refine ⟨fin, ?_, hfin⟩
      rcases hadv : it.advance P with ⟨res, it2⟩
      rw [hadv] at h1 hd
      simp only at h1 hd
      subst h1
      unfold drive
      simp [is_valid, hp, hpt, hadv, hd, hkey]
    · have hadv := keyed_advance_last P it ks hk (by omega) (by omega) (by omega) (by omega)
      refine ⟨{ it with keys_ := none, parent_ := none, index_ := -1 }, ?_, rfl, rfl, rfl⟩
      have hend : selectPairs p.data_ (ks.drop (i + 1)) = [] := by
        rw [List.drop_of_length_le (by omega)]
        rfl
      rw [hend]
      unfold drive
      simp [is_valid, hp, hpt, hadv, hkey, keyed_drive_exhausted]

theorem selectPairs_length (data : List α) (ks : List Int)
    (hK : ∀ k ∈ ks, 0 ≤ k ∧ k < (data.length : Int)) :
    (selectPairs data ks).length = ks.length ∧
    ∀ (i : Nat) (h : i < ks.length),
      ∃ x, data[(ks[i]).toNat]? = some x ∧ (selectPairs data ks)[i]? = some (ks[i], x) := by
  induction ks with
  | nil => exact ⟨rfl, fun i h => absurd h (by simp)⟩
  | cons k ks ih =>
    obtain ⟨hk0, hk1⟩ := hK k (List.mem_cons_self _ _)
    have hl : k.toNat < data.length := by omega
    obtain ⟨ihl, ihe⟩ := ih (fun j hj => hK j (List.mem_cons_of_mem _ hj))
    have hs : selectPairs data (k :: ks) = (k, data[k.toNat]) :: selectPairs data ks := by
      simp [selectPairs, List.filterMap_cons, hl]
    rw [hs]
    refine ⟨by simp [ihl], ?_⟩
    intro i h
    cases i with
    | zero => exact ⟨data[k.toNat], by simp [hl], by simp⟩
    | succ i =>
      obtain ⟨x, hx1, hx2⟩ := ihe i (by simpa using h)
      exact ⟨x, by simpa using hx1, by simpa using hx2⟩

end SubsequenceIterator

/-! ## Whole traversals -/

theorem FullSequenceIterator.construct_nonempty {α π : Type} (P : StdVectorPrefetcher α π)
    (parent : ArrayDataStorage α) (h : parent.data_.length ≠ 0) :
    (FullSequenceIterator.construct P parent).index_ = 0 ∧
    (FullSequenceIterator.construct P parent).parent_ = some parent := by
  unfold FullSequenceIterator.construct
  rw [if_neg h]
  constructor <;> (split <;> [split; skip] <;> rfl)

theorem FullSequenceIterator.construct_empty {α π : Type} (P : StdVectorPrefetcher α π)
    (parent : ArrayDataStorage α) (h : parent.data_.length = 0) :
    FullSequenceIterator.construct P parent =
      { index_ := -1, parent_ := none, prefetcher_ := P.init } := by
  unfold FullSequenceIterator.construct
  rw [if_pos h]

/-- C1: for every collection `data` and every key list `K` whose entries all
lie in `[0, size(data))`, driving the iterator of `get_subsequence(K)` with
enough rounds reads exactly `K.length` pairs, the `i`-th being
`(K[i], data[K[i]])` in the order of `K`, and leaves the iterator exhausted.
The two length bounds are those of every `std::vector` on a 64-bit machine. -/
theorem subsequence_traversal {α π : Type} (P : StdVectorPrefetcher α π)
    (s : ArrayDataStorage α) (K : List Int)
    (hM : K.length < 2 ^ 63 - 1) (hN : s.data_.length < 2 ^ 64)
    (hK : ∀ k ∈ K, 0 ≤ k ∧ k < (s.data_.length : Int))
    (fuel : Nat) (hf : K.length ≤ fuel) :
    ∃ it pairs fin,
      s.get_subsequence P K = .ok it ∧
      SubsequenceIterator.drive P fuel it = .done (pairs, fin) ∧
      pairs.length = K.length ∧
      (∀ (i : Nat) (h : i < K.length),
        ∃ x, s.data_[(K[i]).toNat]? = some x ∧ pairs[i]? = some (K[i], x)) ∧
      fin.is_valid = false := by
  obtain ⟨hlen, hget⟩ := SubsequenceIterator.selectPairs_length s.data_ K hK
  unfold ArrayDataStorage.get_subsequence
  match K, hM, hK, hf, hlen, hget with
  | [], _, _, _, hlen, hget =>
    refine ⟨_, _, _, SubsequenceIterator.construct_nil P s,
      SubsequenceIterator.keyed_drive_exhausted P fuel _ rfl, rfl, ?_, rfl⟩
    intro i h
    exact absurd h (by simp)
  | k :: ks, hM, hK, hf, hlen, hget =>
    obtain ⟨fin, hd, _, hp, _⟩ :=
      SubsequenceIterator.keyed_drive_from P s (k :: ks) hM hN hK fuel 0
        { index_ := 0, keys_ := some (k :: ks), parent_ := some s,
          prefetcher_ := ((k :: ks).take 3).foldl
            (fun q j => P.prefetch q s.data_ j) P.init }
        rfl rfl rfl (by simp) (by simpa using hf)
    exact ⟨_, _, fin, SubsequenceIterator.construct_cons P s k ks, hd, hlen, hget,
      by simp [SubsequenceIterator.is_valid, hp]⟩

/-- The witness of C1: `data = [A, B, C, D]` and `K = [3, 0, 0, 2]`. -/
theorem subsequence_traversal_witness :
    ([3, 0, 0, 2].length < 2 ^ 63 - 1 ∧ ['A', 'B', 'C', 'D'].length < 2 ^ 64 ∧
      (∀ k ∈ ([3, 0, 0, 2] : List Int), 0 ≤ k ∧ k < (['A', 'B', 'C', 'D'].length : Int)) ∧
      [3, 0, 0, 2].length ≤ 4) ∧
    ∃ it pairs fin,
      (⟨['A', 'B', 'C', 'D']⟩ : ArrayDataStorage Char).get_subsequence
        (recordingPrefetcher Char) [3, 0, 0, 2] = .ok it ∧
      SubsequenceIterator.drive (recordingPrefetcher Char) 4 it = .done (pairs, fin) ∧
      pairs.length = ([3, 0, 0, 2] : List Int).length ∧
      (∀ (i : Nat) (h : i < ([3, 0, 0, 2] : List Int).length),
        ∃ x, ['A', 'B', 'C', 'D'][(([3, 0, 0, 2] : List Int)[i]).toNat]? = some x ∧
          pairs[i]? = some (([3, 0, 0, 2] : List Int)[i], x)) ∧
      fin.is_valid = false :=
  ⟨⟨by decide, by decide, by decide, by decide⟩,
    subsequence_traversal (recordingPrefetcher Char) ⟨['A', 'B', 'C', 'D']⟩ [3, 0, 0, 2]
      (by decide) (by decide) (by decide) 4 (by decide)⟩

/-- Every sequential traversal of a non-empty collection stops at its first
key read: the reference returned by `get_key` refers to a destroyed
temporary. -/
theorem FullSequenceIterator.drive_nonempty_faults {α π : Type}
    (P : StdVectorPrefetcher α π) (s : ArrayDataStorage α) (h : s.data_.length ≠ 0)
    (fuel : Nat) :
    FullSequenceIterator.drive P (fuel + 1) (s.get_full_sequence P) =
      .fault .danglingReference := by
  obtain ⟨_, h2⟩ := FullSequenceIterator.construct_nonempty P s h
  unfold FullSequenceIterator.drive ArrayDataStorage.get_full_sequence
  simp [FullSequenceIterator.is_valid, h2, FullSequenceIterator.get_key, KeyRef.read]

/-- C2, the code at the failing input: over the collection `[A, B, C, D]` of
the specification the caller's loop does not read the pair `(0, A)`. Its
first `get_key()` returns a reference to a destroyed temporary (which held
the key `0`), so the key read is a fault and no pair is produced. The keyed
iterator over the same collection reads its four pairs. -/
theorem full_sequence_key_read_faults :
    ((⟨['A', 'B', 'C', 'D']⟩ : ArrayDataStorage Char).get_full_sequence
        (recordingPrefetcher Char)).get_key = .toTemporary 0 ∧
    ((⟨['A', 'B', 'C', 'D']⟩ : ArrayDataStorage Char).get_full_sequence
        (recordingPrefetcher Char)).get_key.read = .error .danglingReference ∧
    ((⟨['A', 'B', 'C', 'D']⟩ : ArrayDataStorage Char).get_full_sequence
        (recordingPrefetcher Char)).get_point = .ok 'A' ∧
    FullSequenceIterator.drive (recordingPrefetcher Char) 4
      ((⟨['A', 'B', 'C', 'D']⟩ : ArrayDataStorage Char).get_full_sequence
        (recordingPrefetcher Char)) = .fault .danglingReference :=
  ⟨rfl, rfl, rfl, by decide⟩

/-! ## Failure of `operator++` -/

theorem FullSequenceIterator.advance_ok_of_inv {α π : Type} (P : StdVectorPrefetcher α π)
    (it : FullSequenceIterator α π) (h : it.Inv) (hv : it.is_valid = true) :
    (it.advance P).1 = .ok () := by
  rcases h with ⟨_, hp⟩ | ⟨p, hp, h0, hL, hT⟩
  · simp [FullSequenceIterator.is_valid, hp] at hv
  · have hb := toInt64_lt_pow p.data_.length
    by_cases hlt : it.index_ + 1 < toInt64 p.data_.length
    · exact (FullSequenceIterator.advance_next P it p hp h0 hlt).1
    · rw [FullSequenceIterator.advance_last P it p hp h0 (by omega) hlt]

theorem FullSequenceIterator.advance_error_of_inv {α π : Type}
    (P : StdVectorPrefetcher α π)
    (it : FullSequenceIterator α π) (h : it.Inv) (hv : it.is_valid = false) :
    it.advance P =
      (.error (.DataStorageError "Advancing invalid FullSequenceIterator."), it) := by
  rcases h with ⟨hi, _⟩ | ⟨p, hp, _⟩
  · exact FullSequenceIterator.advance_exhausted P it hi
  · simp [FullSequenceIterator.is_valid, hp] at hv

theorem SubsequenceIterator.keyed_advance_ok_of_inv {α π : Type} (P : StdVectorPrefetcher α π)
    (it : SubsequenceIterator α π) (h : it.Inv) (hv : it.is_valid = true) :
    (it.advance P).1 = .ok () := by
  rcases h with ⟨_, hp, _⟩ | ⟨p, ks, hp, hk, h0, hL, hM⟩
  · simp [SubsequenceIterator.is_valid, hp] at hv
  · by_cases hlt : it.index_ + 1 < (ks.length : Int)
    · exact (SubsequenceIterator.keyed_advance_next P it p ks hp hk h0 hlt hM).1
    · rw [SubsequenceIterator.keyed_advance_last P it ks hk h0 hL hlt (by omega)]

theorem SubsequenceIterator.keyed_advance_error_of_inv {α π : Type}
    (P : StdVectorPrefetcher α π)
    (it : SubsequenceIterator α π) (h : it.Inv) (hv : it.is_valid = false) :
    it.advance P =
      (.error (.DataStorageError "Advancing invalid SubsequenceIterator."), it) := by
  rcases h with ⟨hi, _, _⟩ | ⟨p, ks, hp, _⟩
  · exact SubsequenceIterator.keyed_advance_exhausted P it hi
  · simp [SubsequenceIterator.is_valid, hp] at hv

/-- C3: for both iterator variants and every reachable iterator, `operator++`
fails with `DataStorageError` if and only if `is_valid()` is false at the
call: it returns normally on every valid iterator and throws on every
exhausted one. -/
theorem advance_fails_iff_exhausted {α π : Type} (P : StdVectorPrefetcher α π) :
    (∀ it : FullSequenceIterator α π, FullSequenceIterator.Reachable P it →
      ((it.advance P).1 =
          .error (.DataStorageError "Advancing invalid FullSequenceIterator.") ↔
        it.is_valid = false) ∧
      (it.is_valid = true → (it.advance P).1 = .ok ())) ∧
    (∀ it : SubsequenceIterator α π, SubsequenceIterator.Reachable P it →
      ((it.advance P).1 =
          .error (.DataStorageError "Advancing invalid SubsequenceIterator.") ↔
        it.is_valid = false) ∧
      (it.is_valid = true → (it.advance P).1 = .ok ())) := by
  constructor
  · intro it hr
    have hinv := FullSequenceIterator.inv_of_reachable P it hr
    refine ⟨⟨fun he => ?_, fun hv => ?_⟩, FullSequenceIterator.advance_ok_of_inv P it hinv⟩
    · cases hv : it.is_valid with
      | false => rfl
      | true =>
        rw [FullSequenceIterator.advance_ok_of_inv P it hinv hv] at he
        cases he
    · rw [FullSequenceIterator.advance_error_of_inv P it hinv hv]
  · intro it hr
    have hinv := SubsequenceIterator.keyed_inv_of_reachable P it hr
    refine ⟨⟨fun he => ?_, fun hv => ?_⟩, SubsequenceIterator.keyed_advance_ok_of_inv P it hinv⟩
    · cases hv : it.is_valid with
      | false => rfl
      | true =>
        rw [SubsequenceIterator.keyed_advance_ok_of_inv P it hinv hv] at he
        cases he
    · rw [SubsequenceIterator.keyed_advance_error_of_inv P it hinv hv]

/-- The witness of C3: the iterators over a one-point collection and a
one-entry key list, after the advance that exhausts them. -/
theorem advance_fails_iff_exhausted_witness :
    (FullSequenceIterator.Reachable (recordingPrefetcher Nat)
        ((FullSequenceIterator.construct (recordingPrefetcher Nat) ⟨[7]⟩).advance
          (recordingPrefetcher Nat)).2 ∧
      SubsequenceIterator.Reachable (recordingPrefetcher Nat)
        ((⟨0, some [0], some ⟨[7]⟩, [0]⟩ : SubsequenceIterator Nat (List Int)).advance
          (recordingPrefetcher Nat)).2) ∧
    ((((FullSequenceIterator.construct (recordingPrefetcher Nat) ⟨[7]⟩).advance
          (recordingPrefetcher Nat)).2.advance (recordingPrefetcher Nat)).1 =
        .error (.DataStorageError "Advancing invalid FullSequenceIterator.") ↔
      ((FullSequenceIterator.construct (recordingPrefetcher Nat) ⟨[7]⟩).advance
          (recordingPrefetcher Nat)).2.is_valid = false) ∧
    ((((⟨0, some [0], some ⟨[7]⟩, [0]⟩ : SubsequenceIterator Nat (List Int)).advance
          (recordingPrefetcher Nat)).2.advance (recordingPrefetcher Nat)).1 =
        .error (.DataStorageError "Advancing invalid SubsequenceIterator.") ↔
      ((⟨0, some [0], some ⟨[7]⟩, [0]⟩ : SubsequenceIterator Nat (List Int)).advance
          (recordingPrefetcher Nat)).2.is_valid = false) :=
  ⟨⟨.advance _ (.construct _),
     .advance _ (.construct [0] ⟨[7]⟩ _ (by decide) (by rfl))⟩,
   ((advance_fails_iff_exhausted (recordingPrefetcher Nat)).1 _
      (.advance _ (.construct _))).1,
   ((advance_fails_iff_exhausted (recordingPrefetcher Nat)).2 _
      (.advance _ (.construct [0] ⟨[7]⟩ _ (by decide) (by rfl)))).1⟩

/-! ## Independence of the prefetcher -/

section Transparency

variable {α π₁ π₂ : Type}

theorem FullSequenceIterator.advance_cursor (P : StdVectorPrefetcher α π₁)
    (Q : StdVectorPrefetcher α π₂) (a : FullSequenceIterator α π₁)
    (b : FullSequenceIterator α π₂) (h : a.cursor = b.cursor) :
    (a.advance P).1 = (b.advance Q).1 ∧ (a.advance P).2.cursor = (b.advance Q).2.cursor := by
  obtain ⟨ai, ap, aq⟩ := a
  obtain ⟨bi, bp, bq⟩ := b
  simp only [FullSequenceIterator.cursor, Prod.mk.injEq] at h
  obtain ⟨rfl, rfl⟩ := h
  unfold FullSequenceIterator.advance FullSequenceIterator.hasNext
  cases ap with
  | none =>
    by_cases h0 : 0 ≤ ai
    · simp [h0, FullSequenceIterator.cursor]
    · by_cases h1 : ai = -1 <;> simp [h0, h1, FullSequenceIterator.cursor]
  | some p =>
    by_cases h0 : 0 ≤ ai
    · by_cases h2 : wrap64 (ai + 1) < toInt64 p.data_.length
      · by_cases h3 : wrap64 (wrap64 (ai + 1) + 2) < toInt64 p.data_.length <;>
          simp [h0, h2, h3, FullSequenceIterator.cursor]
      · by_cases h1 : ai = -1 <;> simp [h0, h1, h2, FullSequenceIterator.cursor]
    · by_cases h1 : ai = -1 <;> simp [h0, h1, FullSequenceIterator.cursor]

theorem FullSequenceIterator.perform_cursor (P : StdVectorPrefetcher α π₁)
    (Q : StdVectorPrefetcher α π₂) (a : FullSequenceIterator α π₁)
    (b : FullSequenceIterator α π₂) (h : a.cursor = b.cursor) (op : Op) :
    (a.perform P op).1 = (b.perform Q op).1 ∧
      (a.perform P op).2.cursor = (b.perform Q op).2.cursor := by
  have hadv := FullSequenceIterator.advance_cursor P Q a b h
  simp only [FullSequenceIterator.cursor, Prod.mk.injEq] at h
  obtain ⟨hi, hp⟩ := h
  cases op with
  | is_valid =>
    simp [FullSequenceIterator.perform, FullSequenceIterator.is_valid,
      FullSequenceIterator.cursor, hi, hp]
  | get_key =>
    simp [FullSequenceIterator.perform, FullSequenceIterator.get_key,
      FullSequenceIterator.cursor, hi, hp]
  | get_point =>
    simp [FullSequenceIterator.perform, FullSequenceIterator.get_point,
      FullSequenceIterator.cursor, hi, hp]
  | advance =>
    simp only [FullSequenceIterator.perform]
    exact ⟨by rw [hadv.1], hadv.2⟩

theorem FullSequenceIterator.runOps_cursor (P : StdVectorPrefetcher α π₁)
    (Q : StdVectorPrefetcher α π₂) (ops : List Op) :
    ∀ (a : FullSequenceIterator α π₁) (b : FullSequenceIterator α π₂),
      a.cursor = b.cursor →
      (a.runOps P ops).1 = (b.runOps Q ops).1 ∧
        (a.runOps P ops).2.cursor = (b.runOps Q ops).2.cursor := by
  induction ops with
  | nil => intro a b h; exact ⟨rfl, h⟩
  | cons op ops ih =>
    intro a b h
    obtain ⟨h1, h2⟩ := FullSequenceIterator.perform_cursor P Q a b h op
    obtain ⟨h3, h4⟩ := ih _ _ h2
    simp only [FullSequenceIterator.runOps]
    exact ⟨by rw [h1, h3], h4⟩

theorem SubsequenceIterator.keyed_advance_cursor (P : StdVectorPrefetcher α π₁)
    (Q : StdVectorPrefetcher α π₂) (a : SubsequenceIterator α π₁)
    (b : SubsequenceIterator α π₂) (h : a.cursor = b.cursor) :
    (a.advance P).1 = (b.advance Q).1 ∧ (a.advance P).2.cursor = (b.advance Q).2.cursor := by
  obtain ⟨ai, ak, ap, aq⟩ := a
  obtain ⟨bi, bk, bp, bq⟩ := b
  simp only [SubsequenceIterator.cursor, Prod.mk.injEq] at h
  obtain ⟨rfl, rfl, rfl⟩ := h
  unfold SubsequenceIterator.advance SubsequenceIterator.hasNext
  by_cases h0 : 0 ≤ ai
  · cases ak with
    | none => simp [h0, SubsequenceIterator.cursor]
    | some ks =>
      by_cases h2 : wrap64 (ai + 1) < toInt64 ks.length
      · by_cases h3 : wrap64 (wrap64 (ai + 1) + 2) < toInt64 ks.length
        · cases ap with
          | none => simp [h0, h2, h3, SubsequenceIterator.cursor]
          | some p =>
            cases hv : vecAt ks (wrap64 (wrap64 (ai + 1) + 2)) <;>
              simp [h0, h2, h3, hv, SubsequenceIterator.cursor]
        · simp [h0, h2, h3, SubsequenceIterator.cursor]
      · by_cases h1 : ai = -1 <;> simp [h0, h1, h2, SubsequenceIterator.cursor]
  · by_cases h1 : ai = -1 <;> simp [h0, h1, SubsequenceIterator.cursor]

theorem SubsequenceIterator.keyed_perform_cursor (P : StdVectorPrefetcher α π₁)
    (Q : StdVectorPrefetcher α π₂) (a : SubsequenceIterator α π₁)
    (b : SubsequenceIterator α π₂) (h : a.cursor = b.cursor) (op : Op) :
    (a.perform P op).1 = (b.perform Q op).1 ∧
      (a.perform P op).2.cursor = (b.perform Q op).2.cursor := by
  have hadv := SubsequenceIterator.keyed_advance_cursor P Q a b h
  simp only [SubsequenceIterator.cursor, Prod.mk.injEq] at h
  obtain ⟨hi, hk, hp⟩ := h
  cases op with
  | is_valid =>
    simp [SubsequenceIterator.perform, SubsequenceIterator.is_valid,
      SubsequenceIterator.cursor, hi, hk, hp]
  | get_key =>
    simp [SubsequenceIterator.perform, SubsequenceIterator.get_key,
      SubsequenceIterator.cursor, hi, hk, hp]
  | get_point =>
    simp [SubsequenceIterator.perform, SubsequenceIterator.get_point,
      SubsequenceIterator.get_key, SubsequenceIterator.cursor, hi, hk, hp]
  | advance =>
    simp only [SubsequenceIterator.perform]
    exact ⟨by rw [hadv.1], hadv.2⟩

theorem SubsequenceIterator.keyed_runOps_cursor (P : StdVectorPrefetcher α π₁)
    (Q : StdVectorPrefetcher α π₂) (ops : List Op) :
    ∀ (a : SubsequenceIterator α π₁) (b : SubsequenceIterator α π₂),
      a.cursor = b.cursor →
      (a.runOps P ops).1 = (b.runOps Q ops).1 ∧
        (a.runOps P ops).2.cursor = (b.runOps Q ops).2.cursor := by
  induction ops with
  | nil => intro a b h; exact ⟨rfl, h⟩
  | cons op ops ih =>
    intro a b h
    obtain ⟨h1, h2⟩ := SubsequenceIterator.keyed_perform_cursor P Q a b h op
    obtain ⟨h3, h4⟩ := ih _ _ h2
    simp only [SubsequenceIterator.runOps]
    exact ⟨by rw [h1, h3], h4⟩

theorem FullSequenceIterator.construct_cursor (P : StdVectorPrefetcher α π₁)
    (Q : StdVectorPrefetcher α π₂) (s : ArrayDataStorage α) :
    (FullSequenceIterator.construct P s).cursor =
      (FullSequenceIterator.construct Q s).cursor := by
  by_cases h : s.data_.length = 0
  · rw [FullSequenceIterator.construct_empty P s h,
      FullSequenceIterator.construct_empty Q s h]
    rfl
  · obtain ⟨h1, h2⟩ := FullSequenceIterator.construct_nonempty P s h
    obtain ⟨h3, h4⟩ := FullSequenceIterator.construct_nonempty Q s h
    simp [FullSequenceIterator.cursor, h1, h2, h3, h4]

end Transparency

/-- C4: prefetching is observationally transparent. For every collection, every
key list and every sequence of `is_valid` / `get_key` / `get_point` /
`operator++` calls, the iterators built with any two prefetchers (in
particular one that issues hints and the no-op one) show the same results
call by call, the same failures included, and end with the same cursor
fields. -/
theorem prefetch_transparent {α π₁ π₂ : Type} (P : StdVectorPrefetcher α π₁)
    (Q : StdVectorPrefetcher α π₂) (s : ArrayDataStorage α) (K : List Int)
    (ops : List Op) :
    (((s.get_full_sequence P).runOps P ops).1 = ((s.get_full_sequence Q).runOps Q ops).1 ∧
      ((s.get_full_sequence P).runOps P ops).2.cursor =
        ((s.get_full_sequence Q).runOps Q ops).2.cursor) ∧
    ∃ a b, s.get_subsequence P K = .ok a ∧ s.get_subsequence Q K = .ok b ∧
      (a.runOps P ops).1 = (b.runOps Q ops).1 ∧
      (a.runOps P ops).2.cursor = (b.runOps Q ops).2.cursor := by
  constructor
  · exact FullSequenceIterator.runOps_cursor P Q ops _ _
      (FullSequenceIterator.construct_cursor P Q s)
  · unfold ArrayDataStorage.get_subsequence
    match K with
    | [] =>
      exact ⟨_, _, SubsequenceIterator.construct_nil P s,
        SubsequenceIterator.construct_nil Q s,
        SubsequenceIterator.keyed_runOps_cursor P Q ops _ _ rfl⟩
    | k :: ks =>
      exact ⟨_, _, SubsequenceIterator.construct_cons P s k ks,
        SubsequenceIterator.construct_cons Q s k ks,
        SubsequenceIterator.keyed_runOps_cursor P Q ops _ _ rfl⟩

/-! ## Construction, absorption, single steps, size, invariant, first hints -/

/-- C5: construction never fails and the fresh iterator is valid exactly when
its source is non-empty. `get_full_sequence()` is valid, at cursor `0`, iff the
collection is non-empty; `get_subsequence(K)` returns an iterator, valid at
cursor `0` iff `K` is non-empty, whatever the collection; otherwise the
iterator is exhausted (cursor `-1`) from the start. -/
theorem construction_valid_iff_nonempty {α π : Type} (P : StdVectorPrefetcher α π)
    (s : ArrayDataStorage α) (K : List Int) :
    (((s.get_full_sequence P).is_valid = true ↔ 0 < s.data_.length) ∧
      ((s.get_full_sequence P).is_valid = true → (s.get_full_sequence P).index_ = 0) ∧
      ((s.get_full_sequence P).is_valid = false → (s.get_full_sequence P).index_ = -1)) ∧
    ∃ it, s.get_subsequence P K = .ok it ∧
      (it.is_valid = true ↔ 0 < K.length) ∧
      (it.is_valid = true → it.index_ = 0 ∧ it.keys_ = some K) ∧
      (it.is_valid = false → it.index_ = -1 ∧ it.keys_ = none) := by
  constructor
  · unfold ArrayDataStorage.get_full_sequence
    by_cases h : s.data_.length = 0
    · rw [FullSequenceIterator.construct_empty P s h]
      simp [FullSequenceIterator.is_valid, h]
    · obtain ⟨h1, h2⟩ := FullSequenceIterator.construct_nonempty P s h
      simp [FullSequenceIterator.is_valid, h1, h2]
      omega
  · unfold ArrayDataStorage.get_subsequence
    match K with
    | [] =>
      exact ⟨_, SubsequenceIterator.construct_nil P s,
        by simp [SubsequenceIterator.is_valid], by simp [SubsequenceIterator.is_valid],
        by simp⟩
    | k :: ks =>
      exact ⟨_, SubsequenceIterator.construct_cons P s k ks,
        by simp [SubsequenceIterator.is_valid], by simp,
        by simp [SubsequenceIterator.is_valid]⟩

theorem FullSequenceIterator.runOps_exhausted {α π : Type} (P : StdVectorPrefetcher α π)
    (it : FullSequenceIterator α π) (hi : it.index_ = -1) (ops : List Op) :
    (it.runOps P ops).2 = it := by
  induction ops with
  | nil => rfl
  | cons op ops ih =>
    have hstep : (it.perform P op).2 = it := by
      cases op <;> simp [FullSequenceIterator.perform,
        FullSequenceIterator.advance_exhausted P it hi]
    simp only [FullSequenceIterator.runOps]
    rw [hstep]
    exact ih

theorem SubsequenceIterator.keyed_runOps_exhausted {α π : Type} (P : StdVectorPrefetcher α π)
    (it : SubsequenceIterator α π) (hi : it.index_ = -1) (ops : List Op) :
    (it.runOps P ops).2 = it := by
  induction ops with
  | nil => rfl
  | cons op ops ih =>
    have hstep : (it.perform P op).2 = it := by
      cases op <;> simp [SubsequenceIterator.perform,
        SubsequenceIterator.keyed_advance_exhausted P it hi]
    simp only [SubsequenceIterator.runOps]
    rw [hstep]
    exact ih

/-- C6: exhausted is absorbing. For both variants and every reachable
iterator with `is_valid()` false, `operator++` throws `DataStorageError` and
leaves every field as it was; hence after any sequence of further calls the
iterator is the same, `is_valid()` is still false, and `operator++` throws
again. -/
theorem exhausted_is_absorbing {α π : Type} (P : StdVectorPrefetcher α π) :
    (∀ it : FullSequenceIterator α π, FullSequenceIterator.Reachable P it →
      it.is_valid = false →
      it.advance P =
        (.error (.DataStorageError "Advancing invalid FullSequenceIterator."), it) ∧
      ∀ ops : List Op,
        (it.runOps P ops).2 = it ∧ (it.runOps P ops).2.is_valid = false ∧
        ((it.runOps P ops).2.advance P).1 =
          .error (.DataStorageError "Advancing invalid FullSequenceIterator.")) ∧
    (∀ it : SubsequenceIterator α π, SubsequenceIterator.Reachable P it →
      it.is_valid = false →
      it.advance P =
        (.error (.DataStorageError "Advancing invalid SubsequenceIterator."), it) ∧
      ∀ ops : List Op,
        (it.runOps P ops).2 = it ∧ (it.runOps P ops).2.is_valid = false ∧
        ((it.runOps P ops).2.advance P).1 =
          .error (.DataStorageError "Advancing invalid SubsequenceIterator.")) := by
  constructor
  · intro it hr hv
    have hinv := FullSequenceIterator.inv_of_reachable P it hr
    have hadv := FullSequenceIterator.advance_error_of_inv P it hinv hv
    have hi : it.index_ = -1 := by
      rcases hinv with ⟨hi, _⟩ | ⟨p, hp, _⟩
      · exact hi
      · simp [FullSequenceIterator.is_valid, hp] at hv
    refine ⟨hadv, fun ops => ?_⟩
    rw [FullSequenceIterator.runOps_exhausted P it hi ops, hadv]
    exact ⟨rfl, hv, rfl⟩
  · intro it hr hv
    have hinv := SubsequenceIterator.keyed_inv_of_reachable P it hr
    have hadv := SubsequenceIterator.keyed_advance_error_of_inv P it hinv hv
    have hi : it.index_ = -1 := by
      rcases hinv with ⟨hi, _, _⟩ | ⟨p, ks, hp, _⟩
      · exact hi
      · simp [SubsequenceIterator.is_valid, hp] at hv
    refine ⟨hadv, fun ops => ?_⟩
    rw [SubsequenceIterator.keyed_runOps_exhausted P it hi ops, hadv]
    exact ⟨rfl, hv, rfl⟩

/-- The witness of C6: the iterators over a one-point collection and a
one-entry key list, after the advance that exhausts them, followed by four
further calls. -/
theorem exhausted_is_absorbing_witness :
    (FullSequenceIterator.Reachable (recordingPrefetcher Nat)
        ((FullSequenceIterator.construct (recordingPrefetcher Nat) ⟨[7]⟩).advance
          (recordingPrefetcher Nat)).2 ∧
      ((FullSequenceIterator.construct (recordingPrefetcher Nat) ⟨[7]⟩).advance
          (recordingPrefetcher Nat)).2.is_valid = false ∧
      SubsequenceIterator.Reachable (recordingPrefetcher Nat)
        ((⟨0, some [0], some ⟨[7]⟩, [0]⟩ : SubsequenceIterator Nat (List Int)).advance
          (recordingPrefetcher Nat)).2 ∧
      ((⟨0, some [0], some ⟨[7]⟩, [0]⟩ : SubsequenceIterator Nat (List Int)).advance
          (recordingPrefetcher Nat)).2.is_valid = false) ∧
    ((((FullSequenceIterator.construct (recordingPrefetcher Nat) ⟨[7]⟩).advance
          (recordingPrefetcher Nat)).2.runOps (recordingPrefetcher Nat)
          [.advance, .is_valid, .get_key, .advance]).2.is_valid = false) ∧
    ((((⟨0, some [0], some ⟨[7]⟩, [0]⟩ : SubsequenceIterator Nat (List Int)).advance
          (recordingPrefetcher Nat)).2.runOps (recordingPrefetcher Nat)
          [.advance, .is_valid, .get_key, .advance]).2.is_valid = false) :=
  ⟨⟨.advance _ (.construct _), by decide,
     .advance _ (.construct [0] ⟨[7]⟩ _ (by decide) (by rfl)), by decide⟩,
   (((exhausted_is_absorbing (recordingPrefetcher Nat)).1 _
      (.advance _ (.construct _)) (by decide)).2 _).2.1,
   (((exhausted_is_absorbing (recordingPrefetcher Nat)).2 _
      (.advance _ (.construct [0] ⟨[7]⟩ _ (by decide) (by rfl))) (by decide)).2 _).2.1⟩

/-- C7: the single step of the state machine, for both variants. From a valid
iterator at cursor `i` over a source of length `L`, `operator++` returns
normally; it leaves a valid iterator at cursor `i + 1` when `i + 1 < L`, and an
exhausted one when `i + 1 ≥ L`. The length bounds are those of every
`std::vector` on a 64-bit machine. -/
theorem advance_single_step {α π : Type} (P : StdVectorPrefetcher α π) :
    (∀ (it : FullSequenceIterator α π) (p : ArrayDataStorage α),
      it.parent_ = some p → 0 ≤ it.index_ → it.index_ < (p.data_.length : Int) →
      p.data_.length < 2 ^ 63 →
      (it.index_ + 1 < (p.data_.length : Int) →
        (it.advance P).1 = .ok () ∧ (it.advance P).2.index_ = it.index_ + 1 ∧
        (it.advance P).2.parent_ = some p ∧ (it.advance P).2.is_valid = true) ∧
      ((p.data_.length : Int) ≤ it.index_ + 1 →
        (it.advance P).1 = .ok () ∧ (it.advance P).2.index_ = -1 ∧
        (it.advance P).2.parent_ = none ∧ (it.advance P).2.is_valid = false)) ∧
    (∀ (it : SubsequenceIterator α π) (p : ArrayDataStorage α) (ks : List Int),
      it.parent_ = some p → it.keys_ = some ks →
      0 ≤ it.index_ → it.index_ < (ks.length : Int) → ks.length < 2 ^ 63 - 1 →
      (it.index_ + 1 < (ks.length : Int) →
        (it.advance P).1 = .ok () ∧ (it.advance P).2.index_ = it.index_ + 1 ∧
        (it.advance P).2.parent_ = some p ∧ (it.advance P).2.keys_ = some ks ∧
        (it.advance P).2.is_valid = true) ∧
      ((ks.length : Int) ≤ it.index_ + 1 →
        (it.advance P).1 = .ok () ∧ (it.advance P).2.index_ = -1 ∧
        (it.advance P).2.parent_ = none ∧ (it.advance P).2.keys_ = none ∧
        (it.advance P).2.is_valid = false)) := by
  constructor
  · intro it p hp h0 hi hL
    have hT : toInt64 p.data_.length = (p.data_.length : Int) := toInt64_of_lt _ hL
    constructor
    · intro hlt
      obtain ⟨h1, h2, h3⟩ :=
        FullSequenceIterator.advance_next P it p hp h0 (by rw [hT]; exact hlt)
      exact ⟨h1, h2, h3, by simp [FullSequenceIterator.is_valid, h3]⟩
    · intro hge
      rw [FullSequenceIterator.advance_last P it p hp h0 (by omega) (by rw [hT]; omega)]
      exact ⟨rfl, rfl, rfl, rfl⟩
  · intro it p ks hp hk h0 hi hM
    constructor
    · intro hlt
      obtain ⟨h1, h2, h3, h4, _⟩ :=
        SubsequenceIterator.keyed_advance_next P it p ks hp hk h0 hlt hM
      exact ⟨h1, h2, h3, h4, by simp [SubsequenceIterator.is_valid, h3]⟩
    · intro hge
      rw [SubsequenceIterator.keyed_advance_last P it ks hk h0 hi (by omega) (by omega)]
      exact ⟨rfl, rfl, rfl, rfl, rfl⟩

/-- The witness of C7: cursor `0` of a two-point collection and of a two-entry
key list moves to cursor `1`. -/
theorem advance_single_step_witness :
    ((0 : Int) ≤ 0 ∧ (0 : Int) < (([7, 8] : List Nat).length : Int) ∧
      ([7, 8] : List Nat).length < 2 ^ 63 ∧
      (0 : Int) + 1 < (([7, 8] : List Nat).length : Int) ∧
      (0 : Int) < (([1, 0] : List Int).length : Int) ∧
      ([1, 0] : List Int).length < 2 ^ 63 - 1 ∧
      (0 : Int) + 1 < (([1, 0] : List Int).length : Int)) ∧
    (((⟨0, some ⟨[7, 8]⟩, []⟩ : FullSequenceIterator Nat (List Int)).advance
        (recordingPrefetcher Nat)).2.index_ = 0 + 1) ∧
    (((⟨0, some [1, 0], some ⟨[7, 8]⟩, []⟩ : SubsequenceIterator Nat (List Int)).advance
        (recordingPrefetcher Nat)).2.index_ = 0 + 1) :=
  ⟨⟨by decide, by decide, by decide, by decide, by decide, by decide, by decide⟩,
   (((advance_single_step (recordingPrefetcher Nat)).1
      (⟨0, some ⟨[7, 8]⟩, []⟩ : FullSequenceIterator Nat (List Int)) ⟨[7, 8]⟩ rfl
      (by decide) (by decide) (by decide)).1 (by decide)).2.1,
   (((advance_single_step (recordingPrefetcher Nat)).2
      (⟨0, some [1, 0], some ⟨[7, 8]⟩, []⟩ : SubsequenceIterator Nat (List Int))
      ⟨[7, 8]⟩ [1, 0] rfl rfl (by decide) (by decide) (by decide)).1 (by decide)).2.1⟩

/-- C8: `size()` returns the length of the wrapped sequence, for every length
that is a non-negative value of `int_fast64_t`. -/
theorem size_eq_count {α : Type} (s : ArrayDataStorage α)
    (h : s.data_.length < 2 ^ 63) : s.size = (s.data_.length : Int) :=
  toInt64_of_lt _ h

/-- The witness of C8: a collection of three points has size `3`. -/
theorem size_eq_count_witness :
    ([7, 8, 9] : List Nat).length < 2 ^ 63 ∧
    (⟨[7, 8, 9]⟩ : ArrayDataStorage Nat).size = (([7, 8, 9] : List Nat).length : Int) :=
  ⟨by decide, size_eq_count ⟨[7, 8, 9]⟩ (by decide)⟩

/-- C9: the representation invariant of both variants, in every state
reachable from either constructor by advances (failed ones included). The
cursor is `-1` iff `parent_` is null (and, for the keyed iterator, iff `keys_`
is null); otherwise `0 ≤ index_ < L` for the source length `L`. Hence
`is_valid()` is true iff the cursor is not `-1`, the test by which
`operator++` decides to throw. -/
theorem representation_invariant {α π : Type} (P : StdVectorPrefetcher α π) :
    (∀ it : FullSequenceIterator α π, FullSequenceIterator.Reachable P it →
      (it.index_ = -1 ↔ it.parent_ = none) ∧
      (∀ p, it.parent_ = some p → 0 ≤ it.index_ ∧ it.index_ < (p.data_.length : Int)) ∧
      (it.is_valid = true ↔ it.index_ ≠ -1)) ∧
    (∀ it : SubsequenceIterator α π, SubsequenceIterator.Reachable P it →
      (it.index_ = -1 ↔ it.parent_ = none) ∧
      (it.index_ = -1 ↔ it.keys_ = none) ∧
      (∀ ks, it.keys_ = some ks → 0 ≤ it.index_ ∧ it.index_ < (ks.length : Int)) ∧
      (it.is_valid = true ↔ it.index_ ≠ -1)) := by
  constructor
  · intro it hr
    rcases FullSequenceIterator.inv_of_reachable P it hr with
      ⟨hi, hp⟩ | ⟨p, hp, h0, hL, _⟩
    · simp [FullSequenceIterator.is_valid, hi, hp]
    · have hne : it.index_ ≠ -1 := by omega
      refine ⟨by simp [hp, hne], ?_, by simp [FullSequenceIterator.is_valid, hp, hne]⟩
      intro q hq
      rw [hp] at hq
      cases hq
      exact ⟨h0, hL⟩
  · intro it hr
    rcases SubsequenceIterator.keyed_inv_of_reachable P it hr with
      ⟨hi, hp, hk⟩ | ⟨p, ks, hp, hk, h0, hL, _⟩
    · simp [SubsequenceIterator.is_valid, hi, hp, hk]
    · have hne : it.index_ ≠ -1 := by omega
      refine ⟨by simp [hp, hne], by simp [hk, hne], ?_,
        by simp [SubsequenceIterator.is_valid, hp, hne]⟩
      intro q hq
      rw [hk] at hq
      cases hq
      exact ⟨h0, hL⟩

/-- The witness of C9: the iterators over a two-point collection and a
two-entry key list after one advance. -/
theorem representation_invariant_witness :
    (FullSequenceIterator.Reachable (recordingPrefetcher Nat)
        ((FullSequenceIterator.construct (recordingPrefetcher Nat) ⟨[7, 8]⟩).advance
          (recordingPrefetcher Nat)).2 ∧
      SubsequenceIterator.Reachable (recordingPrefetcher Nat)
        ((⟨0, some [1, 0], some ⟨[7, 8]⟩, [1, 0]⟩ :
          SubsequenceIterator Nat (List Int)).advance (recordingPrefetcher Nat)).2) ∧
    (((FullSequenceIterator.construct (recordingPrefetcher Nat) ⟨[7, 8]⟩).advance
        (recordingPrefetcher Nat)).2.is_valid = true ↔
      ((FullSequenceIterator.construct (recordingPrefetcher Nat) ⟨[7, 8]⟩).advance
        (recordingPrefetcher Nat)).2.index_ ≠ -1) ∧
    (((⟨0, some [1, 0], some ⟨[7, 8]⟩, [1, 0]⟩ :
        SubsequenceIterator Nat (List Int)).advance (recordingPrefetcher Nat)).2.is_valid
        = true ↔
      ((⟨0, some [1, 0], some ⟨[7, 8]⟩, [1, 0]⟩ :
        SubsequenceIterator Nat (List Int)).advance (recordingPrefetcher Nat)).2.index_
        ≠ -1) :=
  ⟨⟨.advance _ (.construct _),
     .advance _ (.construct [1, 0] ⟨[7, 8]⟩ _ (by decide) (by rfl))⟩,
   ((representation_invariant (recordingPrefetcher Nat)).1 _
      (.advance _ (.construct _))).2.2,
   ((representation_invariant (recordingPrefetcher Nat)).2 _
      (.advance _ (.construct [1, 0] ⟨[7, 8]⟩ _ (by decide) (by rfl)))).2.2.2⟩

/-- C10: on construction over a source of length `L` each iterator issues
exactly `min 3 L` prefetch hints, in order: the sequential iterator for the
collection indices `0 .. min 3 L - 1`, the keyed iterator for the collection
indices `K[0] .. K[min 3 L - 1]`; for `L = 0` no hint is issued. -/
theorem construction_hints {α : Type} (s : ArrayDataStorage α) (K : List Int) :
    ((s.get_full_sequence (recordingPrefetcher α)).prefetcher_ =
        (List.range (min 3 s.data_.length)).map (fun (i : Nat) => (i : Int)) ∧
      (s.get_full_sequence (recordingPrefetcher α)).prefetcher_.length =
        min 3 s.data_.length) ∧
    ∃ it, s.get_subsequence (recordingPrefetcher α) K = .ok it ∧
      it.prefetcher_ = K.take 3 ∧ it.prefetcher_.length = min 3 K.length := by
  constructor
  · obtain ⟨data⟩ := s
    unfold ArrayDataStorage.get_full_sequence FullSequenceIterator.construct
    match data with
    | [] => simp [recordingPrefetcher]
    | [a] => simp [recordingPrefetcher, List.range_succ]
    | [a, b] => simp [recordingPrefetcher, List.range_succ]
    | a :: b :: c :: rest => simp [recordingPrefetcher, List.range_succ]
  · unfold ArrayDataStorage.get_subsequence
    match K with
    | [] => exact ⟨_, SubsequenceIterator.construct_nil _ s, rfl, rfl⟩
    | [a] =>
      exact ⟨_, SubsequenceIterator.construct_cons _ s a [], by simp [recordingPrefetcher],
        by simp [recordingPrefetcher]⟩
    | [a, b] =>
      exact ⟨_, SubsequenceIterator.construct_cons _ s a [b],
        by simp [recordingPrefetcher], by simp [recordingPrefetcher]⟩
    | a :: b :: c :: rest =>
      exact ⟨_, SubsequenceIterator.construct_cons _ s a (b :: c :: rest),
        by simp [recordingPrefetcher], by simp [recordingPrefetcher]⟩



/-! ## The hints of a traversal -/

theorem firstPositions_succ (n : Nat) :
    firstPositions (n + 1) = firstPositions n ++ [(n : Int)] := by
  simp [firstPositions, List.range_succ]

theorem firstPositions_length (n : Nat) : (firstPositions n).length = n := by
  simp [firstPositions]

theorem mem_firstPositions (n : Nat) (h : Int) :
    h ∈ firstPositions n ↔ 0 ≤ h ∧ h < (n : Int) := by
  simp only [firstPositions, List.mem_map, List.mem_range]
  constructor
  · rintro ⟨i, hi, rfl⟩
    omega
  · rintro ⟨h0, h1⟩
    exact ⟨h.toNat, by omega, by omega⟩

theorem FullSequenceIterator.advanceN_succ {α π : Type} (P : StdVectorPrefetcher α π)
    (n : Nat) : ∀ it : FullSequenceIterator α π,
      FullSequenceIterator.advanceN P (n + 1) it =
        ((FullSequenceIterator.advanceN P n it).advance P).2 := by
  induction n with
  | zero => intro it; rfl
  | succ n ih =>
    intro it
    show FullSequenceIterator.advanceN P (n + 1) (it.advance P).2 = _
    rw [ih]
    rfl

theorem SubsequenceIterator.keyed_advanceN_succ {α π : Type} (P : StdVectorPrefetcher α π)
    (n : Nat) : ∀ it : SubsequenceIterator α π,
      SubsequenceIterator.advanceN P (n + 1) it =
        ((SubsequenceIterator.advanceN P n it).advance P).2 := by
  induction n with
  | zero => intro it; rfl
  | succ n ih =>
    intro it
    show SubsequenceIterator.advanceN P (n + 1) (it.advance P).2 = _
    rw [ih]
    rfl

theorem FullSequenceIterator.eq_mk {α π : Type} (x : FullSequenceIterator α π)
    (i : Int) (p : Option (ArrayDataStorage α)) (q : π)
    (h1 : x.index_ = i) (h2 : x.parent_ = p) (h3 : x.prefetcher_ = q) :
    x = { index_ := i, parent_ := p, prefetcher_ := q } := by
  cases x
  simp only at h1 h2 h3
  subst h1 h2 h3
  rfl

theorem SubsequenceIterator.keyed_eq_mk {α π : Type} (x : SubsequenceIterator α π)
    (i : Int) (k : Option (List Int)) (p : Option (ArrayDataStorage α)) (q : π)
    (h1 : x.index_ = i) (h2 : x.keys_ = k) (h3 : x.parent_ = p) (h4 : x.prefetcher_ = q) :
    x = { index_ := i, keys_ := k, parent_ := p, prefetcher_ := q } := by
  cases x
  simp only at h1 h2 h3 h4
  subst h1 h2 h3 h4
  rfl

theorem FullSequenceIterator.construct_recording {α : Type} (s : ArrayDataStorage α) :
    FullSequenceIterator.construct (recordingPrefetcher α) s =
      if 0 < s.data_.length then
        { index_ := 0, parent_ := some s,
          prefetcher_ := firstPositions (min 3 s.data_.length) }
      else
        { index_ := -1, parent_ := none, prefetcher_ := firstPositions s.data_.length } := by
  obtain ⟨data⟩ := s
  unfold FullSequenceIterator.construct
  match data with
  | [] => simp [recordingPrefetcher, firstPositions]
  | [a] => simp [recordingPrefetcher, firstPositions, List.range_succ]
  | [a, b] => simp [recordingPrefetcher, firstPositions, List.range_succ]
  | a :: b :: c :: rest => simp [recordingPrefetcher, firstPositions, List.range_succ]

theorem FullSequenceIterator.advance_recording {α : Type} (s : ArrayDataStorage α)
    (hL : s.data_.length < 2 ^ 63 - 1) (i : Nat) (hi : i < s.data_.length) :
    ((⟨(i : Int), some s, firstPositions (min (i + 3) s.data_.length)⟩ :
        FullSequenceIterator α (List Int)).advance (recordingPrefetcher α)).2 =
      if i + 1 < s.data_.length then
        { index_ := ((i + 1 : Nat) : Int), parent_ := some s,
          prefetcher_ := firstPositions (min (i + 1 + 3) s.data_.length) }
      else
        { index_ := -1, parent_ := none, prefetcher_ := firstPositions s.data_.length } := by
  have hT : toInt64 s.data_.length = (s.data_.length : Int) := toInt64_of_lt _ (by omega)
  by_cases hlt : i + 1 < s.data_.length
  · rw [if_pos hlt]
    obtain ⟨_, h2, h3⟩ := FullSequenceIterator.advance_next (recordingPrefetcher α)
      (⟨(i : Int), some s, firstPositions (min (i + 3) s.data_.length)⟩ :
        FullSequenceIterator α (List Int)) s rfl (by simp) (by rw [hT]; simp; omega)
    have h4 := FullSequenceIterator.advance_next_prefetcher (recordingPrefetcher α)
      (⟨(i : Int), some s, firstPositions (min (i + 3) s.data_.length)⟩ :
        FullSequenceIterator α (List Int)) s rfl (by simp) (by rw [hT]; simp; omega)
      (by rw [hT]; omega)
    refine FullSequenceIterator.eq_mk _ _ _ _ (by rw [h2]; push_cast; rfl) h3 ?_
    rw [h4, hT]
    by_cases h3lt : i + 3 < s.data_.length
    · have e1 : min (i + 3) s.data_.length = i + 3 := by omega
      have e2 : min (i + 1 + 3) s.data_.length = (i + 3) + 1 := by omega
      rw [if_pos (by simp; omega), e2, firstPositions_succ]
      simp [recordingPrefetcher, e1]
    · have e1 : min (i + 3) s.data_.length = s.data_.length := by omega
      have e2 : min (i + 1 + 3) s.data_.length = s.data_.length := by omega
      rw [if_neg (by simp; omega), e2]
      simp [e1]
  · rw [if_neg hlt]
    have e1 : min (i + 3) s.data_.length = s.data_.length := by omega
    rw [FullSequenceIterator.advance_last (recordingPrefetcher α) _ s rfl (by simp)
      (by simp; omega) (by rw [hT]; simp; omega), e1]

/-- The states of a sequential traversal with a recording prefetcher: after
`n` advances the cursor is `n` and the positions `0 .. min (n + 2) (L - 1)`
have been hinted, until the traversal is exhausted with `L` hints. -/
theorem FullSequenceIterator.advanceN_construct {α : Type} (s : ArrayDataStorage α)
    (hL : s.data_.length < 2 ^ 63 - 1) (n : Nat) :
    FullSequenceIterator.advanceN (recordingPrefetcher α) n
        (FullSequenceIterator.construct (recordingPrefetcher α) s) =
      if n < s.data_.length then
        { index_ := (n : Int), parent_ := some s,
          prefetcher_ := firstPositions (min (n + 3) s.data_.length) }
      else
        { index_ := -1, parent_ := none, prefetcher_ := firstPositions s.data_.length } := by
  induction n with
  | zero =>
    rw [FullSequenceIterator.advanceN, FullSequenceIterator.construct_recording]
    rfl
  | succ n ih =>
    rw [FullSequenceIterator.advanceN_succ, ih]
    by_cases h : n < s.data_.length
    · rw [if_pos h, FullSequenceIterator.advance_recording s hL n h]
    · rw [if_neg h, if_neg (by omega),
        FullSequenceIterator.advance_exhausted _ _ rfl]

theorem SubsequenceIterator.keyed_construct_recording {α : Type} (s : ArrayDataStorage α)
    (K : List Int) :
    SubsequenceIterator.construct (recordingPrefetcher α) K s =
      .ok (if 0 < K.length then
        { index_ := 0, keys_ := some K, parent_ := some s, prefetcher_ := K.take 3 }
      else
        { index_ := -1, keys_ := none, parent_ := none, prefetcher_ := K }) := by
  match K with
  | [] => rw [SubsequenceIterator.construct_nil]; rfl
  | [a] => rw [SubsequenceIterator.construct_cons]; simp [recordingPrefetcher]
  | [a, b] => rw [SubsequenceIterator.construct_cons]; simp [recordingPrefetcher]
  | a :: b :: c :: rest =>
    rw [SubsequenceIterator.construct_cons]; simp [recordingPrefetcher]

theorem SubsequenceIterator.keyed_advance_recording {α : Type} (s : ArrayDataStorage α)
    (K : List Int) (hM : K.length < 2 ^ 63 - 1) (i : Nat) (hi : i < K.length) :
    ((⟨(i : Int), some K, some s, K.take (i + 3)⟩ :
        SubsequenceIterator α (List Int)).advance (recordingPrefetcher α)).2 =
      if i + 1 < K.length then
        { index_ := ((i + 1 : Nat) : Int), keys_ := some K, parent_ := some s,
          prefetcher_ := K.take (i + 1 + 3) }
      else
        { index_ := -1, keys_ := none, parent_ := none, prefetcher_ := K } := by
  by_cases hlt : i + 1 < K.length
  · rw [if_pos hlt]
    obtain ⟨_, h2, h3, h4, h5⟩ := SubsequenceIterator.keyed_advance_next
      (recordingPrefetcher α)
      (⟨(i : Int), some K, some s, K.take (i + 3)⟩ : SubsequenceIterator α (List Int))
      s K rfl rfl (by simp) (by simp; omega) hM
    refine SubsequenceIterator.keyed_eq_mk _ _ _ _ _ (by rw [h2]; push_cast; rfl) h4 h3 ?_
    rw [h5]
    have e : ((i : Int) + 3).toNat = i + 3 := by omega
    by_cases h3lt : i + 3 < K.length
    · rw [if_pos (by simp; omega)]
      simp only [e]
      have e2 : K.take (i + 1 + 3) = K.take (i + 3) ++ [K[i + 3]] := by
        have e3 := @List.take_succ Int K (i + 3)
        rw [List.getElem?_eq_getElem h3lt] at e3
        exact e3
      rw [e2]
      simp [recordingPrefetcher, List.getD, h3lt]
    · rw [if_neg (by simp; omega), List.take_of_length_le (by omega)]
      simp only
      rw [List.take_of_length_le (by omega)]
  · rw [if_neg hlt]
    rw [SubsequenceIterator.keyed_advance_last (recordingPrefetcher α) _ K rfl (by simp)
      (by simp; omega) (by simp; omega) (by omega)]
    simp only
    rw [List.take_of_length_le (by omega)]

/-- The states of a keyed traversal with a recording prefetcher: after `n`
advances the cursor is `n` and the keys `K[0] .. K[min (n + 2) (M - 1)]` have
been hinted, until the traversal is exhausted with all of `K` hinted. -/
theorem SubsequenceIterator.keyed_advanceN_construct {α : Type} (s : ArrayDataStorage α)
    (K : List Int) (hM : K.length < 2 ^ 63 - 1) (n : Nat) :
    SubsequenceIterator.advanceN (recordingPrefetcher α) n
        (if 0 < K.length then
          { index_ := 0, keys_ := some K, parent_ := some s, prefetcher_ := K.take 3 }
        else
          { index_ := -1, keys_ := none, parent_ := none, prefetcher_ := K }) =
      if n < K.length then
        { index_ := (n : Int), keys_ := some K, parent_ := some s,
          prefetcher_ := K.take (n + 3) }
      else
        { index_ := -1, keys_ := none, parent_ := none, prefetcher_ := K } := by
  induction n with
  | zero =>
    rw [SubsequenceIterator.advanceN]
    rfl
  | succ n ih =>
    rw [SubsequenceIterator.keyed_advanceN_succ, ih]
    by_cases h : n < K.length
    · rw [if_pos h, SubsequenceIterator.keyed_advance_recording s K hM n h]
    · rw [if_neg h, if_neg (by omega),
        SubsequenceIterator.keyed_advance_exhausted _ _ rfl]

/-! ## The hint of a single advance -/

theorem FullSequenceIterator.advance_error_state {α π : Type}
    (P : StdVectorPrefetcher α π) (it : FullSequenceIterator α π) (f : Fault)
    (h : (it.advance P).1 = .error f) : (it.advance P).2.prefetcher_ = it.prefetcher_ := by
  obtain ⟨i, p, q⟩ := it
  unfold FullSequenceIterator.advance FullSequenceIterator.hasNext at h ⊢
  cases p with
  | none =>
    by_cases h0 : 0 ≤ i
    · simp [h0]
    · by_cases h1 : i = -1 <;> simp [h0, h1]
  | some p =>
    by_cases h0 : 0 ≤ i
    · by_cases h2 : wrap64 (i + 1) < toInt64 p.data_.length
      · by_cases h3 : wrap64 (wrap64 (i + 1) + 2) < toInt64 p.data_.length <;>
          simp [h0, h2, h3] at h
      · by_cases h1 : i = -1 <;> simp [h0, h1, h2]
    · by_cases h1 : i = -1 <;> simp [h0, h1]

theorem SubsequenceIterator.keyed_advance_error_state {α π : Type}
    (P : StdVectorPrefetcher α π) (it : SubsequenceIterator α π) (f : Fault)
    (h : (it.advance P).1 = .error f) : (it.advance P).2.prefetcher_ = it.prefetcher_ := by
  obtain ⟨i, k, p, q⟩ := it
  unfold SubsequenceIterator.advance SubsequenceIterator.hasNext at h ⊢
  by_cases h0 : 0 ≤ i
  · cases k with
    | none => simp [h0]
    | some ks =>
      by_cases h2 : wrap64 (i + 1) < toInt64 ks.length
      · by_cases h3 : wrap64 (wrap64 (i + 1) + 2) < toInt64 ks.length
        · cases p with
          | none => simp [h0, h2, h3]
          | some p =>
            cases hv : vecAt ks (wrap64 (wrap64 (i + 1) + 2)) with
            | error e => simp [h0, h2, h3, hv]
            | ok y => simp [h0, h2, h3, hv] at h
        · simp [h0, h2, h3]
      · by_cases h1 : i = -1 <;> simp [h0, h1, h2]
  · by_cases h1 : i = -1 <;> simp [h0, h1]

/-- C11: for both variants, an advance from cursor `index_` that lands on
traversal position `i = index_ + 1` over a source of length `L` issues exactly
one prefetch hint, for traversal position `i + 2` (collection index `i + 2` for
the sequential iterator, `K[i + 2]` for the keyed one), if `i + 2 < L`, and
none if `i + 2 ≥ L`; an advance that exhausts the iterator or fails issues
none. A hint is one call of the prefetcher, which is a parameter here. The
length bound is that of every `std::vector` on a 64-bit machine. -/
theorem advance_hint {α π : Type} (P : StdVectorPrefetcher α π) :
    (∀ (it : FullSequenceIterator α π) (p : ArrayDataStorage α),
      it.parent_ = some p → 0 ≤ it.index_ → it.index_ < (p.data_.length : Int) →
      p.data_.length < 2 ^ 63 - 1 →
      (it.index_ + 1 + 2 < (p.data_.length : Int) →
        (it.advance P).2.index_ = it.index_ + 1 ∧
        (it.advance P).2.prefetcher_ =
          P.prefetch it.prefetcher_ p.data_ (it.index_ + 1 + 2)) ∧
      (it.index_ + 1 < (p.data_.length : Int) →
        (p.data_.length : Int) ≤ it.index_ + 1 + 2 →
        (it.advance P).2.index_ = it.index_ + 1 ∧
        (it.advance P).2.prefetcher_ = it.prefetcher_) ∧
      ((p.data_.length : Int) ≤ it.index_ + 1 →
        (it.advance P).2.is_valid = false ∧
        (it.advance P).2.prefetcher_ = it.prefetcher_)) ∧
    (∀ (it : FullSequenceIterator α π) (f : Fault), (it.advance P).1 = .error f →
      (it.advance P).2.prefetcher_ = it.prefetcher_) ∧
    (∀ (it : SubsequenceIterator α π) (p : ArrayDataStorage α) (ks : List Int),
      it.parent_ = some p → it.keys_ = some ks →
      0 ≤ it.index_ → it.index_ < (ks.length : Int) → ks.length < 2 ^ 63 - 1 →
      (it.index_ + 1 + 2 < (ks.length : Int) →
        (it.advance P).2.index_ = it.index_ + 1 ∧
        ∃ k, ks[(it.index_ + 1 + 2).toNat]? = some k ∧
          (it.advance P).2.prefetcher_ = P.prefetch it.prefetcher_ p.data_ k) ∧
      (it.index_ + 1 < (ks.length : Int) →
        (ks.length : Int) ≤ it.index_ + 1 + 2 →
        (it.advance P).2.index_ = it.index_ + 1 ∧
        (it.advance P).2.prefetcher_ = it.prefetcher_) ∧
      ((ks.length : Int) ≤ it.index_ + 1 →
        (it.advance P).2.is_valid = false ∧
        (it.advance P).2.prefetcher_ = it.prefetcher_)) ∧
    (∀ (it : SubsequenceIterator α π) (f : Fault), (it.advance P).1 = .error f →
      (it.advance P).2.prefetcher_ = it.prefetcher_) := by
  refine ⟨?_, FullSequenceIterator.advance_error_state P, ?_,
    SubsequenceIterator.keyed_advance_error_state P⟩
  · intro it p hp h0 hi hL
    have hT : toInt64 p.data_.length = (p.data_.length : Int) :=
      toInt64_of_lt _ (by omega)
    refine ⟨fun h3 => ?_, fun h1 h3 => ?_, fun h1 => ?_⟩
    · obtain ⟨_, h2, _⟩ :=
        FullSequenceIterator.advance_next P it p hp h0 (by rw [hT]; omega)
      have h4 := FullSequenceIterator.advance_next_prefetcher P it p hp h0
        (by rw [hT]; omega) (by rw [hT]; omega)
      rw [hT, if_pos (by omega)] at h4
      have e : it.index_ + 3 = it.index_ + 1 + 2 := by omega
      refine ⟨h2, ?_⟩
      rw [h4, e]
    · obtain ⟨_, h2, _⟩ :=
        FullSequenceIterator.advance_next P it p hp h0 (by rw [hT]; omega)
      have h4 := FullSequenceIterator.advance_next_prefetcher P it p hp h0
        (by rw [hT]; omega) (by rw [hT]; omega)
      rw [hT, if_neg (by omega)] at h4
      exact ⟨h2, h4⟩
    · rw [FullSequenceIterator.advance_last P it p hp h0 (by omega) (by rw [hT]; omega)]
      exact ⟨rfl, rfl⟩
  · intro it p ks hp hk h0 hi hM
    refine ⟨fun h3 => ?_, fun h1 h3 => ?_, fun h1 => ?_⟩
    · obtain ⟨_, h2, _, _, h5⟩ :=
        SubsequenceIterator.keyed_advance_next P it p ks hp hk h0 (by omega) hM
      rw [if_pos (by omega)] at h5
      have e : (it.index_ + 1 + 2).toNat = (it.index_ + 3).toNat := by omega
      have hl : (it.index_ + 3).toNat < ks.length := by omega
      refine ⟨h2, ks[(it.index_ + 3).toNat], by rw [e]; simp [hl], ?_⟩
      rw [h5]
      simp [List.getD, hl]
    · obtain ⟨_, h2, _, _, h5⟩ :=
        SubsequenceIterator.keyed_advance_next P it p ks hp hk h0 h1 hM
      rw [if_neg (by omega)] at h5
      exact ⟨h2, h5⟩
    · rw [SubsequenceIterator.keyed_advance_last P it ks hk h0 hi (by omega) (by omega)]
      exact ⟨rfl, rfl⟩

/-- The witness of C11: from cursor `0` of a four-point collection the hint
`3` is added to the log; from cursor `0` of the key list `[3, 0, 0, 2]` the
hint `K[3] = 2` is added. -/
theorem advance_hint_witness :
    ((0 : Int) ≤ 0 ∧ (0 : Int) < (([7, 8, 9, 10] : List Nat).length : Int) ∧
      ([7, 8, 9, 10] : List Nat).length < 2 ^ 63 - 1 ∧
      (0 : Int) + 1 + 2 < (([7, 8, 9, 10] : List Nat).length : Int) ∧
      (0 : Int) < (([3, 0, 0, 2] : List Int).length : Int) ∧
      ([3, 0, 0, 2] : List Int).length < 2 ^ 63 - 1 ∧
      (0 : Int) + 1 + 2 < (([3, 0, 0, 2] : List Int).length : Int)) ∧
    (((⟨0, some ⟨[7, 8, 9, 10]⟩, [0, 1, 2]⟩ : FullSequenceIterator Nat (List Int)).advance
        (recordingPrefetcher Nat)).2.prefetcher_ = [0, 1, 2] ++ [0 + 1 + 2]) ∧
    (∃ k, ([3, 0, 0, 2] : List Int)[((0 : Int) + 1 + 2).toNat]? = some k ∧
      ((⟨0, some [3, 0, 0, 2], some ⟨[7, 8, 9, 10]⟩, [3, 0, 0]⟩ :
        SubsequenceIterator Nat (List Int)).advance
        (recordingPrefetcher Nat)).2.prefetcher_ = [3, 0, 0] ++ [k]) :=
  ⟨⟨by decide, by decide, by decide, by decide, by decide, by decide, by decide⟩,
   (((advance_hint (recordingPrefetcher Nat)).1
      (⟨0, some ⟨[7, 8, 9, 10]⟩, [0, 1, 2]⟩ : FullSequenceIterator Nat (List Int))
      ⟨[7, 8, 9, 10]⟩ rfl (by decide) (by decide) (by decide)).1 (by decide)).2,
   (((advance_hint (recordingPrefetcher Nat)).2.2.1
      (⟨0, some [3, 0, 0, 2], some ⟨[7, 8, 9, 10]⟩, [3, 0, 0]⟩ :
        SubsequenceIterator Nat (List Int))
      ⟨[7, 8, 9, 10]⟩ [3, 0, 0, 2] rfl rfl (by decide) (by decide) (by decide)).1
      (by decide)).2⟩

/-! ## The look-ahead window -/

/-- C12: the look-ahead window. For both variants over a source of length `L`,
the iterator reached by `i < L` advances from construction is valid at cursor
`i`, and the hints issued so far are exactly the traversal positions
`0, 1, ..., min (i + 2) (L - 1)`, each once and in increasing order (for the
keyed iterator: the keys `K[0], ..., K[min (i + 2) (L - 1)]`). After `L`
advances the iterator is exhausted and every traversal position has been
hinted exactly once, in traversal order, and none beyond the source. The
length bound is that of every `std::vector` on a 64-bit machine. -/
theorem lookahead_window {α : Type} (s : ArrayDataStorage α) (K : List Int) :
    (s.data_.length < 2 ^ 63 - 1 →
      (∀ i : Nat, i < s.data_.length →
        (FullSequenceIterator.advanceN (recordingPrefetcher α) i
          (s.get_full_sequence (recordingPrefetcher α))).is_valid = true ∧
        (FullSequenceIterator.advanceN (recordingPrefetcher α) i
          (s.get_full_sequence (recordingPrefetcher α))).index_ = (i : Int) ∧
        (FullSequenceIterator.advanceN (recordingPrefetcher α) i
          (s.get_full_sequence (recordingPrefetcher α))).prefetcher_ =
            firstPositions (min (i + 2) (s.data_.length - 1) + 1)) ∧
      (FullSequenceIterator.advanceN (recordingPrefetcher α) s.data_.length
        (s.get_full_sequence (recordingPrefetcher α))).is_valid = false ∧
      (FullSequenceIterator.advanceN (recordingPrefetcher α) s.data_.length
        (s.get_full_sequence (recordingPrefetcher α))).prefetcher_ =
          firstPositions s.data_.length) ∧
    (K.length < 2 ^ 63 - 1 →
      ∃ it0, s.get_subsequence (recordingPrefetcher α) K = .ok it0 ∧
        (∀ i : Nat, i < K.length →
          (SubsequenceIterator.advanceN (recordingPrefetcher α) i it0).is_valid = true ∧
          (SubsequenceIterator.advanceN (recordingPrefetcher α) i it0).index_ = (i : Int) ∧
          (SubsequenceIterator.advanceN (recordingPrefetcher α) i it0).prefetcher_ =
            K.take (min (i + 2) (K.length - 1) + 1)) ∧
        (SubsequenceIterator.advanceN (recordingPrefetcher α) K.length it0).is_valid
          = false ∧
        (SubsequenceIterator.advanceN (recordingPrefetcher α) K.length it0).prefetcher_
          = K) := by
  constructor
  · intro hL
    unfold ArrayDataStorage.get_full_sequence
    refine ⟨fun i hi => ?_, ?_, ?_⟩
    · rw [FullSequenceIterator.advanceN_construct s hL i, if_pos hi]
      have e : min (i + 3) s.data_.length = min (i + 2) (s.data_.length - 1) + 1 := by
        omega
      rw [e]
      exact ⟨rfl, rfl, rfl⟩
    · rw [FullSequenceIterator.advanceN_construct s hL _, if_neg (by omega)]
      rfl
    · rw [FullSequenceIterator.advanceN_construct s hL _, if_neg (by omega)]
  · intro hM
    unfold ArrayDataStorage.get_subsequence
    refine ⟨_, SubsequenceIterator.keyed_construct_recording s K, fun i hi => ?_, ?_, ?_⟩
    · rw [SubsequenceIterator.keyed_advanceN_construct s K hM i, if_pos hi]
      have e : K.take (i + 3) = K.take (min (i + 2) (K.length - 1) + 1) := by
        by_cases h : i + 3 ≤ K.length
        · have e2 : min (i + 2) (K.length - 1) + 1 = i + 3 := by omega
          rw [e2]
        · have e2 : min (i + 2) (K.length - 1) + 1 = K.length := by omega
          rw [e2, List.take_of_length_le (by omega), List.take_of_length_le (le_refl _)]
      rw [e]
      exact ⟨rfl, rfl, rfl⟩
    · rw [SubsequenceIterator.keyed_advanceN_construct s K hM _, if_neg (by omega)]
      rfl
    · rw [SubsequenceIterator.keyed_advanceN_construct s K hM _, if_neg (by omega)]

/-- The witness of C12: the collection `[A, B, C, D]` and the key list
`[3, 0, 0, 2]` of the specification, after one advance. -/
theorem lookahead_window_witness :
    (['A', 'B', 'C', 'D'].length < 2 ^ 63 - 1 ∧ 1 < ['A', 'B', 'C', 'D'].length ∧
      ([3, 0, 0, 2] : List Int).length < 2 ^ 63 - 1) ∧
    ((FullSequenceIterator.advanceN (recordingPrefetcher Char) 1
        ((⟨['A', 'B', 'C', 'D']⟩ : ArrayDataStorage Char).get_full_sequence
          (recordingPrefetcher Char))).prefetcher_ =
      firstPositions (min (1 + 2) (['A', 'B', 'C', 'D'].length - 1) + 1)) ∧
    (∃ it0, (⟨['A', 'B', 'C', 'D']⟩ : ArrayDataStorage Char).get_subsequence
        (recordingPrefetcher Char) [3, 0, 0, 2] = .ok it0 ∧
      (SubsequenceIterator.advanceN (recordingPrefetcher Char)
        ([3, 0, 0, 2] : List Int).length it0).prefetcher_ = [3, 0, 0, 2]) :=
  ⟨⟨by decide, by decide, by decide⟩,
   (((lookahead_window (⟨['A', 'B', 'C', 'D']⟩ : ArrayDataStorage Char) [3, 0, 0, 2]).1
      (by decide)).1 1 (by decide)).2.2,
   (fun ⟨it0, h0, _, _, h3⟩ => ⟨it0, h0, h3⟩)
     ((lookahead_window (⟨['A', 'B', 'C', 'D']⟩ : ArrayDataStorage Char) [3, 0, 0, 2]).2
      (by decide))⟩

/-! ## Bounds safety -/

theorem FullSequenceIterator.inv_advanceN {α π : Type} (P : StdVectorPrefetcher α π)
    (n : Nat) : ∀ it : FullSequenceIterator α π, it.Inv →
      (FullSequenceIterator.advanceN P n it).Inv := by
  induction n with
  | zero => intro it h; exact h
  | succ n ih =>
    intro it h
    exact ih _ (FullSequenceIterator.inv_advance P it h)

theorem FullSequenceIterator.get_point_ok_of_inv {α π : Type}
    (it : FullSequenceIterator α π) (h : it.Inv) (hv : it.is_valid = true) :
    ∃ x, it.get_point = .ok x := by
  rcases h with ⟨_, hp⟩ | ⟨p, hp, h0, hL, hT⟩
  · simp [FullSequenceIterator.is_valid, hp] at hv
  · have hb := toInt64_lt_pow p.data_.length
    obtain ⟨x, hx, _⟩ := vecAt_of_range p.data_ it.index_ h0 hL (by omega)
    exact ⟨x, by simp only [FullSequenceIterator.get_point, hp, hx]⟩

/-- C13: bounds safety. Over a key list whose entries all lie in `[0, size)`,
at every step of a keyed traversal the construction, `get_key`, `get_point`
and `operator++` of a valid iterator read their vectors in bounds (none of
them ends in a fault, the look-ahead reads of the key list included), the key
read indexes into the collection, and every collection index passed to the
prefetcher lies in `[0, size)`. For the sequential iterator the reads are in
bounds without any condition, and the hinted indices lie in `[0, size)`. The
length bounds are those of every `std::vector` on a 64-bit machine. -/
theorem bounds_safety {α : Type} (s : ArrayDataStorage α) (K : List Int) :
    (∀ n : Nat,
      (FullSequenceIterator.advanceN (recordingPrefetcher α) n
          (s.get_full_sequence (recordingPrefetcher α))).is_valid = true →
        (∃ x, (FullSequenceIterator.advanceN (recordingPrefetcher α) n
          (s.get_full_sequence (recordingPrefetcher α))).get_point = .ok x) ∧
        ((FullSequenceIterator.advanceN (recordingPrefetcher α) n
          (s.get_full_sequence (recordingPrefetcher α))).advance
            (recordingPrefetcher α)).1 = .ok ()) ∧
    (s.data_.length < 2 ^ 63 - 1 → ∀ n : Nat,
      ∀ h ∈ (FullSequenceIterator.advanceN (recordingPrefetcher α) n
          (s.get_full_sequence (recordingPrefetcher α))).prefetcher_,
        0 ≤ h ∧ h < (s.data_.length : Int)) ∧
    (K.length < 2 ^ 63 - 1 → s.data_.length < 2 ^ 64 →
      (∀ k ∈ K, 0 ≤ k ∧ k < (s.data_.length : Int)) →
      ∃ it0, s.get_subsequence (recordingPrefetcher α) K = .ok it0 ∧ ∀ n : Nat,
        ((SubsequenceIterator.advanceN (recordingPrefetcher α) n it0).is_valid = true →
          (∃ k, (SubsequenceIterator.advanceN (recordingPrefetcher α) n it0).get_key
              = .ok k ∧ 0 ≤ k ∧ k < (s.data_.length : Int)) ∧
          (∃ x, (SubsequenceIterator.advanceN (recordingPrefetcher α) n it0).get_point
              = .ok x) ∧
          ((SubsequenceIterator.advanceN (recordingPrefetcher α) n it0).advance
            (recordingPrefetcher α)).1 = .ok ()) ∧
        ∀ h ∈ (SubsequenceIterator.advanceN (recordingPrefetcher α) n it0).prefetcher_,
          0 ≤ h ∧ h < (s.data_.length : Int)) := by
  refine ⟨?_, ?_, ?_⟩
  · intro n hv
    unfold ArrayDataStorage.get_full_sequence at hv ⊢
    have hinv := FullSequenceIterator.inv_advanceN (recordingPrefetcher α) n _
      (FullSequenceIterator.inv_construct (recordingPrefetcher α) s)
    exact ⟨FullSequenceIterator.get_point_ok_of_inv _ hinv hv,
      FullSequenceIterator.advance_ok_of_inv _ _ hinv hv⟩
  · intro hL n
    unfold ArrayDataStorage.get_full_sequence
    rw [FullSequenceIterator.advanceN_construct s hL n]
    by_cases hn : n < s.data_.length
    · rw [if_pos hn]
      intro h hh
      simp only at hh
      rw [mem_firstPositions] at hh
      omega
    · rw [if_neg hn]
      intro h hh
      simp only at hh
      rw [mem_firstPositions] at hh
      exact hh
  · intro hM hN hK
    unfold ArrayDataStorage.get_subsequence
    refine ⟨_, SubsequenceIterator.keyed_construct_recording s K, fun n => ?_⟩
    rw [SubsequenceIterator.keyed_advanceN_construct s K hM n]
    by_cases hn : n < K.length
    · rw [if_pos hn]
      obtain ⟨hk0, hk1⟩ := hK K[n] (List.getElem_mem hn)
      obtain ⟨x, hx, _⟩ := vecAt_of_range s.data_ K[n] hk0 hk1 (by omega)
      have hkey : (⟨(n : Int), some K, some s, K.take (n + 3)⟩ :
          SubsequenceIterator α (List Int)).get_key = .ok K[n] := by
        simp only [SubsequenceIterator.get_key]
        exact vecAt_natCast _ _ hn (by omega)
      refine ⟨fun _ => ⟨⟨K[n], hkey, hk0, hk1⟩, ⟨x, ?_⟩, ?_⟩, ?_⟩
      · simp only [SubsequenceIterator.get_point, hkey, hx]
      · refine SubsequenceIterator.keyed_advance_ok_of_inv _ _ ?_ rfl
        right
        exact ⟨s, K, rfl, rfl, by simp, by simp; omega, hM⟩
      · intro h hh
        exact hK h (List.mem_of_mem_take hh)
    · rw [if_neg hn]
      refine ⟨fun hv => ?_, fun h hh => hK h hh⟩
      simp [SubsequenceIterator.is_valid] at hv

/-- The witness of C13: the collection `[A, B, C, D]` and the key list
`[3, 0, 0, 2]` of the specification, after two advances. -/
theorem bounds_safety_witness :
    (['A', 'B', 'C', 'D'].length < 2 ^ 63 - 1 ∧
      ([3, 0, 0, 2] : List Int).length < 2 ^ 63 - 1 ∧
      ['A', 'B', 'C', 'D'].length < 2 ^ 64 ∧
      (∀ k ∈ ([3, 0, 0, 2] : List Int), 0 ≤ k ∧ k < (['A', 'B', 'C', 'D'].length : Int))) ∧
    (∀ h ∈ (FullSequenceIterator.advanceN (recordingPrefetcher Char) 2
        ((⟨['A', 'B', 'C', 'D']⟩ : ArrayDataStorage Char).get_full_sequence
          (recordingPrefetcher Char))).prefetcher_,
      0 ≤ h ∧ h < (['A', 'B', 'C', 'D'].length : Int)) ∧
    (∃ it0, (⟨['A', 'B', 'C', 'D']⟩ : ArrayDataStorage Char).get_subsequence
        (recordingPrefetcher Char) [3, 0, 0, 2] = .ok it0 ∧
      ∀ h ∈ (SubsequenceIterator.advanceN (recordingPrefetcher Char) 2 it0).prefetcher_,
        0 ≤ h ∧ h < (['A', 'B', 'C', 'D'].length : Int)) :=
  ⟨⟨by decide, by decide, by decide, by decide⟩,
   (bounds_safety (⟨['A', 'B', 'C', 'D']⟩ : ArrayDataStorage Char) [3, 0, 0, 2]).2.1
      (by decide) 2,
   (fun ⟨it0, h0, h1⟩ => ⟨it0, h0, (h1 2).2⟩)
     ((bounds_safety (⟨['A', 'B', 'C', 'D']⟩ : ArrayDataStorage Char) [3, 0, 0, 2]).2.2
      (by decide) (by decide) (by decide))⟩

/-! ## Agreement of the two iteration modes -/

theorem firstPositions_take (n m : Nat) :
    (firstPositions n).take m = firstPositions (min m n) := by
  simp [firstPositions, ← List.map_take, List.take_range]

theorem firstPositions_getElem (n i : Nat) (h : i < (firstPositions n).length) :
    (firstPositions n)[i] = (i : Int) := by
  simp [firstPositions]

/-- Apart from the key read, the two iteration modes move in lock-step. For
every collection of size `N` whose key list `[0, 1, ..., N - 1]` is a list of
`KeyType` values, after the same number of advances the sequential and the
keyed iterator have the same `is_valid()`, the same cursor, the same current
point and the same sequence of hinted indices, and `operator++` returns
normally on both or throws `DataStorageError` on both. The keyed `get_key()`
reads the position; the sequential one returns a reference that cannot be
read. -/
theorem lockstep_apart_from_key {α : Type} (s : ArrayDataStorage α)
    (hK : ∀ k ∈ firstPositions s.data_.length, IsKeyType k) :
    ∃ b0, s.get_subsequence (recordingPrefetcher α) (firstPositions s.data_.length)
        = .ok b0 ∧
      ∀ n : Nat,
        (FullSequenceIterator.advanceN (recordingPrefetcher α) n
            (s.get_full_sequence (recordingPrefetcher α))).is_valid =
          (SubsequenceIterator.advanceN (recordingPrefetcher α) n b0).is_valid ∧
        (FullSequenceIterator.advanceN (recordingPrefetcher α) n
            (s.get_full_sequence (recordingPrefetcher α))).index_ =
          (SubsequenceIterator.advanceN (recordingPrefetcher α) n b0).index_ ∧
        (FullSequenceIterator.advanceN (recordingPrefetcher α) n
            (s.get_full_sequence (recordingPrefetcher α))).prefetcher_ =
          (SubsequenceIterator.advanceN (recordingPrefetcher α) n b0).prefetcher_ ∧
        ((FullSequenceIterator.advanceN (recordingPrefetcher α) n
            (s.get_full_sequence (recordingPrefetcher α))).is_valid = true →
          (SubsequenceIterator.advanceN (recordingPrefetcher α) n b0).get_key =
            .ok (FullSequenceIterator.advanceN (recordingPrefetcher α) n
              (s.get_full_sequence (recordingPrefetcher α))).index_ ∧
          (FullSequenceIterator.advanceN (recordingPrefetcher α) n
              (s.get_full_sequence (recordingPrefetcher α))).get_key.read =
            .error .danglingReference ∧
          (SubsequenceIterator.advanceN (recordingPrefetcher α) n b0).get_point =
            (FullSequenceIterator.advanceN (recordingPrefetcher α) n
              (s.get_full_sequence (recordingPrefetcher α))).get_point ∧
          ((FullSequenceIterator.advanceN (recordingPrefetcher α) n
            (s.get_full_sequence (recordingPrefetcher α))).advance
              (recordingPrefetcher α)).1 = .ok () ∧
          ((SubsequenceIterator.advanceN (recordingPrefetcher α) n b0).advance
              (recordingPrefetcher α)).1 = .ok ()) ∧
        ((FullSequenceIterator.advanceN (recordingPrefetcher α) n
            (s.get_full_sequence (recordingPrefetcher α))).is_valid = false →
          ((FullSequenceIterator.advanceN (recordingPrefetcher α) n
            (s.get_full_sequence (recordingPrefetcher α))).advance
              (recordingPrefetcher α)).1 =
            .error (.DataStorageError "Advancing invalid FullSequenceIterator.") ∧
          ((SubsequenceIterator.advanceN (recordingPrefetcher α) n b0).advance
              (recordingPrefetcher α)).1 =
            .error (.DataStorageError "Advancing invalid SubsequenceIterator.")) := by
  have hN : s.data_.length ≤ 2 ^ 31 := by
    by_contra hc
    have hmem : ((2 ^ 31 : Nat) : Int) ∈ firstPositions s.data_.length := by
      rw [mem_firstPositions]
      omega
    have := (hK _ hmem).2
    omega
  have hlen : (firstPositions s.data_.length).length = s.data_.length :=
    firstPositions_length _
  have hM : (firstPositions s.data_.length).length < 2 ^ 63 - 1 := by omega
  unfold ArrayDataStorage.get_subsequence ArrayDataStorage.get_full_sequence
  refine ⟨_, SubsequenceIterator.keyed_construct_recording s _, fun n => ?_⟩
  rw [SubsequenceIterator.keyed_advanceN_construct s _ hM n,
    FullSequenceIterator.advanceN_construct s (by omega) n, hlen]
  by_cases hn : n < s.data_.length
  · rw [if_pos hn, if_pos hn]
    have hn2 : n < (firstPositions s.data_.length).length := by omega
    have hkn : (firstPositions s.data_.length)[n] = (n : Int) :=
      firstPositions_getElem _ _ hn2
    have hkey : (⟨(n : Int), some (firstPositions s.data_.length), some s,
        (firstPositions s.data_.length).take (n + 3)⟩ :
          SubsequenceIterator α (List Int)).get_key = .ok (n : Int) := by
      simp only [SubsequenceIterator.get_key]
      rw [vecAt_natCast _ _ hn2 (by omega), hkn]
    refine ⟨rfl, rfl, ?_, fun _ => ⟨?_, rfl, ?_, ?_, ?_⟩, fun hv => ?_⟩
    · simp only
      rw [firstPositions_take]
    · rw [hkey]
    · simp only [SubsequenceIterator.get_point, hkey, FullSequenceIterator.get_point]
    · refine FullSequenceIterator.advance_ok_of_inv _ _ ?_ rfl
      right
      refine ⟨s, rfl, by simp, by simp; omega, ?_⟩
      right
      rw [toInt64_of_lt _ (by omega)]
      simp
      omega
    · refine SubsequenceIterator.keyed_advance_ok_of_inv _ _ ?_ rfl
      right
      exact ⟨s, _, rfl, rfl, by simp, by simp; omega, hM⟩
    · simp [FullSequenceIterator.is_valid] at hv
  · rw [if_neg hn, if_neg hn]
    refine ⟨rfl, rfl, rfl, fun hv => ?_, fun _ => ⟨?_, ?_⟩⟩
    · simp [FullSequenceIterator.is_valid] at hv
    · rw [FullSequenceIterator.advance_exhausted _ _ rfl]
    · rw [SubsequenceIterator.keyed_advance_exhausted _ _ rfl]

/-- C14, the code at the failing input: over the collection `[A, B, C, D]`,
after one advance, both iterators are valid at cursor `1`, the keyed iterator
of `get_subsequence([0, 1, 2, 3])` reads the key `1`, and the sequential
iterator of `get_full_sequence()` returns a reference to a destroyed
temporary, whose read is a fault: the two modes do not show the same current
key. -/
theorem modes_disagree_on_key :
    ∃ b0, (⟨['A', 'B', 'C', 'D']⟩ : ArrayDataStorage Char).get_subsequence
        (recordingPrefetcher Char) [0, 1, 2, 3] = .ok b0 ∧
      (SubsequenceIterator.advanceN (recordingPrefetcher Char) 1 b0).is_valid = true ∧
      (FullSequenceIterator.advanceN (recordingPrefetcher Char) 1
        ((⟨['A', 'B', 'C', 'D']⟩ : ArrayDataStorage Char).get_full_sequence
          (recordingPrefetcher Char))).is_valid = true ∧
      (SubsequenceIterator.advanceN (recordingPrefetcher Char) 1 b0).get_key = .ok 1 ∧
      (FullSequenceIterator.advanceN (recordingPrefetcher Char) 1
        ((⟨['A', 'B', 'C', 'D']⟩ : ArrayDataStorage Char).get_full_sequence
          (recordingPrefetcher Char))).get_key.read = .error .danglingReference :=
  ⟨⟨0, some [0, 1, 2, 3], some ⟨['A', 'B', 'C', 'D']⟩, [0, 1, 2]⟩, rfl, rfl, rfl, rfl, rfl⟩

/-! ## The sequential key read and default construction -/

/-- No key can be read through the reference the sequential `get_key`
returns, whatever the iterator; the temporary it refers to held the cursor
converted to `KeyType`. -/
theorem FullSequenceIterator.get_key_read {α π : Type} (it : FullSequenceIterator α π) :
    it.get_key = .toTemporary (toKeyType it.index_) ∧
    it.get_key.read = .error .danglingReference :=
  ⟨rfl, rfl⟩

/-- C15, the code at the failing input: at position `1` of the collection
`[A, B, C, D]` the sequential `get_key()` converts the cursor to the
`KeyType` value `1`, but into a temporary that is destroyed at the end of the
`return` statement; the reference it returns cannot be read, so the caller
does not obtain the key `1`. -/
theorem key_read_dangles :
    (FullSequenceIterator.advanceN (recordingPrefetcher Char) 1
      ((⟨['A', 'B', 'C', 'D']⟩ : ArrayDataStorage Char).get_full_sequence
        (recordingPrefetcher Char))).index_ = 1 ∧
    (FullSequenceIterator.advanceN (recordingPrefetcher Char) 1
      ((⟨['A', 'B', 'C', 'D']⟩ : ArrayDataStorage Char).get_full_sequence
        (recordingPrefetcher Char))).get_key = .toTemporary 1 ∧
    (FullSequenceIterator.advanceN (recordingPrefetcher Char) 1
      ((⟨['A', 'B', 'C', 'D']⟩ : ArrayDataStorage Char).get_full_sequence
        (recordingPrefetcher Char))).get_key.read = .error .danglingReference :=
  ⟨rfl, rfl, rfl⟩

theorem FullSequenceIterator.advanceN_default {α π : Type} (P : StdVectorPrefetcher α π)
    (n : Nat) :
    FullSequenceIterator.advanceN P n (FullSequenceIterator.default P) =
      FullSequenceIterator.default P := by
  induction n with
  | zero => rfl
  | succ n ih =>
    rw [FullSequenceIterator.advanceN_succ, ih,
      FullSequenceIterator.advance_exhausted P _ rfl]

theorem SubsequenceIterator.keyed_advanceN_default {α π : Type}
    (P : StdVectorPrefetcher α π) (n : Nat) :
    SubsequenceIterator.advanceN P n (SubsequenceIterator.default P) =
      SubsequenceIterator.default P := by
  induction n with
  | zero => rfl
  | succ n ih =>
    rw [SubsequenceIterator.keyed_advanceN_succ, ih,
      SubsequenceIterator.keyed_advance_exhausted P _ rfl]

/-- C16: default-constructed iterators are exhausted. For both variants the
iterator of the argument-free constructor has cursor `-1` and null references,
reports `is_valid()` false, has issued no prefetch hint (with a recording
prefetcher the log is empty), and `operator++` throws `DataStorageError` on
the first call and on every later one, leaving the iterator as constructed. -/
theorem default_is_exhausted {α π : Type} (P : StdVectorPrefetcher α π) :
    ((FullSequenceIterator.default P).index_ = -1 ∧
      (FullSequenceIterator.default P).parent_ = none ∧
      (FullSequenceIterator.default P).is_valid = false ∧
      (FullSequenceIterator.default P).prefetcher_ = P.init ∧
      (FullSequenceIterator.default (recordingPrefetcher α)).prefetcher_ = [] ∧
      ∀ n : Nat,
        (FullSequenceIterator.advanceN P n (FullSequenceIterator.default P)).advance P =
          (.error (.DataStorageError "Advancing invalid FullSequenceIterator."),
            FullSequenceIterator.default P)) ∧
    ((SubsequenceIterator.default P).index_ = -1 ∧
      (SubsequenceIterator.default P).keys_ = none ∧
      (SubsequenceIterator.default P).parent_ = none ∧
      (SubsequenceIterator.default P).is_valid = false ∧
      (SubsequenceIterator.default P).prefetcher_ = P.init ∧
      (SubsequenceIterator.default (recordingPrefetcher α)).prefetcher_ = [] ∧
      ∀ n : Nat,
        (SubsequenceIterator.advanceN P n (SubsequenceIterator.default P)).advance P =
          (.error (.DataStorageError "Advancing invalid SubsequenceIterator."),
            SubsequenceIterator.default P)) := by
  refine ⟨⟨rfl, rfl, rfl, rfl, rfl, fun n => ?_⟩, ⟨rfl, rfl, rfl, rfl, rfl, rfl, fun n => ?_⟩⟩
  · rw [FullSequenceIterator.advanceN_default,
      FullSequenceIterator.advance_exhausted P _ rfl]
  · rw [SubsequenceIterator.keyed_advanceN_default,
      SubsequenceIterator.keyed_advance_exhausted P _ rfl]

end falconn.core
